import Mathlib

/-!
# Verification of the intent-engine semantic middle-end

A shallow embedding, in Lean 4, of the Rust sources of the `intent-engine`
repository (canonical JSON, the `TypeRef` type language, the intent store,
the validation pipeline, obligations, generation artifacts, the semantic
diff, and the CLI command drivers), together with theorems settling the
specification claims about them.

Strings manipulated by the Rust parsers are modelled as `List Char`;
`&str` methods (`trim`, `strip_prefix`, `strip_suffix`, `to_lowercase`)
are modelled by the corresponding character-list functions below.  Rust
`HashMap`/`HashSet` containers are modelled as association lists / lists
with insertion-order iteration; `BTreeMap` is modelled as a key-sorted
association list.  `char::is_alphabetic` and `to_lowercase` are modelled
on their ASCII fragment (`Char.isAlpha`, `Char.toLower`), which covers
every string the engine's own sources and tests use.
-/

/-! ## Character-list utilities (models of Rust `&str` methods) -/

/-- Model of Rust `char::is_whitespace` (ASCII fragment). -/
def isWs (c : Char) : Bool := c.isWhitespace

/-- Model of Rust `str::trim`: drop whitespace from both ends. -/
def trimChars (s : List Char) : List Char :=
  ((s.dropWhile isWs).reverse.dropWhile isWs).reverse

/-- Model of Rust `str::strip_prefix`: if `p` is a prefix of the input,
return the remainder, else `none`. -/
def stripPre : List Char → List Char → Option (List Char)
  | [], s => some s
  | _ :: _, [] => none
  | p :: ps, c :: cs => if p = c then stripPre ps cs else none

/-- Model of Rust `str::strip_suffix` with a single-character pattern. -/
def stripSuf (c : Char) (s : List Char) : Option (List Char) :=
  match s.reverse with
  | [] => none
  | x :: rest => if x = c then some rest.reverse else none

/-- Model of Rust `str::to_lowercase` (ASCII fragment). -/
def toLowerChars (s : List Char) : List Char := s.map Char.toLower

/-! ## The `TypeRef` type language (`src/model/types.rs`) -/

/-- `TypeRef` from `src/model/types.rs`: primitives, containers, and named
references to `Type` intents. -/
inductive TypeRef where
  | string
  | int
  | float
  | bool
  | money
  | datetime
  | uuid
  | bytes
  | array (t : TypeRef)
  | map (k v : TypeRef)
  | optional (t : TypeRef)
  | named (s : List Char)
  deriving DecidableEq, Repr

/-- `TypeParseError` from `src/model/types.rs`. -/
inductive TypeParseError where
  | empty
  | invalidName (s : List Char)
  | invalidMapKey (s : List Char)
  | unbalancedBrackets (s : List Char)
  | missingMapValue
  deriving DecidableEq, Repr

/-- `TypeRef::is_valid_map_key`: only `string`, `int`, `uuid` may key a map. -/
def TypeRef.isValidMapKey : TypeRef → Bool
  | .string | .int | .uuid => true
  | _ => false

/-- `TypeRef::is_primitive`. -/
def TypeRef.isPrimitive : TypeRef → Bool
  | .string | .int | .float | .bool | .money | .datetime | .uuid | .bytes => true
  | _ => false

/-- The characters of the literal `"array<"`. -/
def arrayHead : List Char := ['a', 'r', 'r', 'a', 'y', '<']

/-- The characters of the literal `"optional<"`. -/
def optionalHead : List Char := ['o', 'p', 't', 'i', 'o', 'n', 'a', 'l', '<']

/-- The characters of the literal `"map<"`. -/
def mapHead : List Char := ['m', 'a', 'p', '<']

/-- The characters of the primitive name `"string"`. -/
def stringChars : List Char := ['s', 't', 'r', 'i', 'n', 'g']

/-- The characters of the primitive name `"int"`. -/
def intChars : List Char := ['i', 'n', 't']

/-- The characters of the primitive name `"float"`. -/
def floatChars : List Char := ['f', 'l', 'o', 'a', 't']

/-- The characters of the primitive name `"bool"`. -/
def boolChars : List Char := ['b', 'o', 'o', 'l']

/-- The characters of the primitive name `"money"`. -/
def moneyChars : List Char := ['m', 'o', 'n', 'e', 'y']

/-- The characters of the primitive name `"datetime"`. -/
def datetimeChars : List Char := ['d', 'a', 't', 'e', 't', 'i', 'm', 'e']

/-- The characters of the primitive name `"uuid"`. -/
def uuidChars : List Char := ['u', 'u', 'i', 'd']

/-- The characters of the primitive name `"bytes"`. -/
def bytesChars : List Char := ['b', 'y', 't', 'e', 's']

/-- `split_map_types` from `src/model/types.rs`: scan for the first
depth-0 comma, tracking `<`/`>` nesting in a signed counter, and return
the trimmed key and value parts; a missing or empty value part is an
error.  `acc` accumulates the characters already scanned. -/
def splitMapGo : List Char → Int → List Char →
    Except TypeParseError (List Char × List Char)
  | [], _, _ => .error .missingMapValue
  | c :: rest, depth, acc =>
    if c = '<' then splitMapGo rest (depth + 1) (acc ++ [c])
    else if c = '>' then splitMapGo rest (depth - 1) (acc ++ [c])
    else if c = ',' ∧ depth = 0 then
      let value := trimChars rest
      if value = [] then .error .missingMapValue
      else .ok (trimChars acc, value)
    else splitMapGo rest depth (acc ++ [c])

/-- `split_map_types`: entry point with depth 0 and empty accumulator. -/
def splitMapTypes (s : List Char) : Except TypeParseError (List Char × List Char) :=
  splitMapGo s 0 []

/-- `TypeRef::parse` from `src/model/types.rs`, with an explicit fuel
parameter making the recursion (which is on strictly shorter strings)
structural; `TypeRef.parse` below supplies fuel `length + 1`, which the
recursion never exhausts. -/
def parseF : Nat → List Char → Except TypeParseError TypeRef
  | 0, _ => .error .empty
  | n + 1, s0 =>
    let s := trimChars s0
    match (stripPre arrayHead s).bind (stripSuf '>') with
    | some inner =>
      match parseF n inner with
      | .ok t => .ok (.array t)
      | .error e => .error e
    | none =>
      match (stripPre optionalHead s).bind (stripSuf '>') with
      | some inner =>
        match parseF n inner with
        | .ok t => .ok (.optional t)
        | .error e => .error e
      | none =>
        match (stripPre mapHead s).bind (stripSuf '>') with
        | some inner =>
          match splitMapTypes inner with
          | .error e => .error e
          | .ok (key, value) =>
            match parseF n key with
            | .error e => .error e
            | .ok keyType =>
              match parseF n value with
              | .error e => .error e
              | .ok valueType =>
                if keyType.isValidMapKey then .ok (.map keyType valueType)
                else .error (.invalidMapKey key)
        | none =>
          let ls := toLowerChars s
          if ls = stringChars then .ok .string
          else if ls = intChars then .ok .int
          else if ls = floatChars then .ok .float
          else if ls = boolChars then .ok .bool
          else if ls = moneyChars then .ok .money
          else if ls = datetimeChars then .ok .datetime
          else if ls = uuidChars then .ok .uuid
          else if ls = bytesChars then .ok .bytes
          else
            match s with
            | [] => .error .empty
            | c :: _ =>
              if c.isAlpha then .ok (.named s) else .error (.invalidName s)

/-- `TypeRef::parse`. -/
def TypeRef.parse (s : List Char) : Except TypeParseError TypeRef :=
  parseF (s.length + 1) s

/-- The `Display` implementation for `TypeRef` (`impl Display for TypeRef`):
lowercase primitive names, `array<T>`, `optional<T>`, `map<K, V>`, and the
raw name for `Named`. -/
def TypeRef.print : TypeRef → List Char
  | .string => stringChars
  | .int => intChars
  | .float => floatChars
  | .bool => boolChars
  | .money => moneyChars
  | .datetime => datetimeChars
  | .uuid => uuidChars
  | .bytes => bytesChars
  | .array t => arrayHead ++ t.print ++ ['>']
  | .map k v => mapHead ++ k.print ++ [',', ' '] ++ v.print ++ ['>']
  | .optional t => optionalHead ++ t.print ++ ['>']
  | .named s => s

/-- Whether the input both starts with the container head `h` and, after
that head is removed, ends with `>` — exactly the test
`s.strip_prefix(h).and_then(|s| s.strip_suffix('>'))` performs. -/
def hasContainerShape (h s : List Char) : Bool :=
  ((stripPre h s).bind (stripSuf '>')).isSome

/-- Whether the (lowercased) input is one of the eight primitive type names. -/
def isPrimName (s : List Char) : Bool :=
  s = stringChars ∨ s = intChars ∨ s = floatChars ∨ s = boolChars ∨
    s = moneyChars ∨ s = datetimeChars ∨ s = uuidChars ∨ s = bytesChars

/-- The last character of a character list (default `'a'` on the empty list). -/
def lastD (s : List Char) : Char := s.reverse.headD 'a'

/-- A name for which `TypeRef::parse` recovers `Named s` from the printed
form: non-empty, alphabetic first character, no trailing whitespace, its
lowercasing is not a primitive name, and it does not have the shape of a
container type expression. -/
def goodNameB (s : List Char) : Bool :=
  match s with
  | [] => false
  | c :: _ =>
    c.isAlpha ∧ ¬ isWs (lastD s) ∧ ¬ isPrimName (toLowerChars s) ∧
      ¬ hasContainerShape arrayHead s ∧ ¬ hasContainerShape optionalHead s ∧
      ¬ hasContainerShape mapHead s

/-- The `TypeRef` values whose printed form parses back to themselves:
map keys must be valid map-key primitives, and every `named` component
must be a `goodNameB` name. -/
def TypeRef.wellFormed : TypeRef → Bool
  | .array t => t.wellFormed
  | .optional t => t.wellFormed
  | .map k v => (k = .string ∨ k = .int ∨ k = .uuid) ∧ v.wellFormed
  | .named s => goodNameB s
  | _ => true

deriving instance DecidableEq for Except

/-! ## Lemmas about the character-list utilities -/

theorem stripPre_append (p r : List Char) : stripPre p (p ++ r) = some r := by
  induction p with
  | nil => rfl
  | cons c cs ih => simp [stripPre, ih]

theorem stripSuf_append (r : List Char) (c : Char) :
    stripSuf c (r ++ [c]) = some r := by
  simp [stripSuf]

theorem lastD_concat (xs : List Char) (c : Char) : lastD (xs ++ [c]) = c := by
  simp [lastD]

theorem not_ws_of_alpha {c : Char} (h : c.isAlpha = true) : isWs c = false := by
  by_contra hws
  rw [Bool.not_eq_false] at hws
  have hc : c = ' ' ∨ c = '\t' ∨ c = '\r' ∨ c = '\n' := by
    simpa [isWs, Char.isWhitespace, or_assoc] using hws
  rcases hc with rfl | rfl | rfl | rfl <;> exact absurd h (by decide)

theorem trimChars_eq_self {s : List Char} (h1 : isWs (s.headD 'a') = false)
    (h2 : isWs (lastD s) = false) : trimChars s = s := by
  cases s with
  | nil => rfl
  | cons c t =>
    simp only [List.headD_cons] at h1
    unfold trimChars
    rw [List.dropWhile_cons]
    simp only [h1, Bool.false_eq_true, if_false]
    rcases hrev : (c :: t).reverse with _ | ⟨x, xs⟩
    · simp at hrev
    · have hx : isWs x = false := by
        have h2x := h2
        simp only [lastD, hrev, List.headD_cons] at h2x
        exact h2x
      have hdw : List.dropWhile isWs (x :: xs) = x :: xs := by
        rw [List.dropWhile_cons]
        simp [hx]
      rw [hdw, ← hrev, List.reverse_reverse]

theorem stripPre_cons_ne {p c : Char} (ps cs : List Char) (h : p ≠ c) :
    stripPre (p :: ps) (c :: cs) = none := by
  simp [stripPre, h]

theorem bind_eq_none_of_shape {h s : List Char}
    (hc : hasContainerShape h s = false) :
    (stripPre h s).bind (stripSuf '>') = none := by
  unfold hasContainerShape at hc
  rcases hx : (stripPre h s).bind (stripSuf '>') with _ | v
  · rfl
  · rw [hx] at hc
    simp at hc

theorem lastD_append_right (a : List Char) {b : List Char} (hb : b ≠ []) :
    lastD (a ++ b) = lastD b := by
  rcases hrev : b.reverse with _ | ⟨x, xs⟩
  · exact absurd (by simpa using congrArg List.reverse hrev) hb
  · simp [lastD, List.reverse_append, hrev]

theorem splitMapGo_no_special (K : List Char)
    (hK : ∀ c ∈ K, c ≠ '<' ∧ c ≠ '>' ∧ c ≠ ',') (R : List Char) :
    ∀ acc, splitMapGo (K ++ ',' :: R) 0 acc =
      (if trimChars R = [] then .error .missingMapValue
       else .ok (trimChars (acc ++ K), trimChars R)) := by
  induction K with
  | nil =>
    intro acc
    simp [splitMapGo]
  | cons c K ih =>
    intro acc
    obtain ⟨h1, h2, h3⟩ := hK c (by simp)
    have ih2 := ih (fun d hd => hK d (by simp [hd])) (acc ++ [c])
    simp only [List.cons_append, splitMapGo, h1, h2, h3, if_false, false_and,
      if_neg (by simp [h3] : ¬(c = ',' ∧ (0 : Int) = 0)), List.append_eq]
    rw [ih2]
    simp [List.append_assoc]

theorem parseF_string_eval (m : Nat) : parseF (m + 1) stringChars = .ok .string := rfl

theorem parseF_int_eval (m : Nat) : parseF (m + 1) intChars = .ok .int := rfl

theorem parseF_float_eval (m : Nat) : parseF (m + 1) floatChars = .ok .float := rfl

theorem parseF_bool_eval (m : Nat) : parseF (m + 1) boolChars = .ok .bool := rfl

theorem parseF_money_eval (m : Nat) : parseF (m + 1) moneyChars = .ok .money := rfl

theorem parseF_datetime_eval (m : Nat) : parseF (m + 1) datetimeChars = .ok .datetime := rfl

theorem parseF_uuid_eval (m : Nat) : parseF (m + 1) uuidChars = .ok .uuid := rfl

theorem parseF_bytes_eval (m : Nat) : parseF (m + 1) bytesChars = .ok .bytes := rfl

theorem parseF_arrayStep (m : Nat) (X : List Char) :
    parseF (m + 1) (arrayHead ++ (X ++ ['>'])) =
      match parseF m X with
      | .ok t => .ok (.array t)
      | .error e => .error e := by
  have h1 : isWs ((arrayHead ++ (X ++ ['>'])).headD 'a') = false := by
    have hh : (arrayHead ++ (X ++ ['>'])).headD 'a' = 'a' := by simp [arrayHead]
    rw [hh]; decide
  have h2 : isWs (lastD (arrayHead ++ (X ++ ['>']))) = false := by
    rw [lastD_append_right _ (by simp), lastD_concat]
    decide
  have htrim := trimChars_eq_self h1 h2
  simp only [parseF, htrim, stripPre_append, Option.some_bind, stripSuf_append]

theorem parseF_optionalStep (m : Nat) (X : List Char) :
    parseF (m + 1) (optionalHead ++ (X ++ ['>'])) =
      match parseF m X with
      | .ok t => .ok (.optional t)
      | .error e => .error e := by
  have h1 : isWs ((optionalHead ++ (X ++ ['>'])).headD 'a') = false := by
    have hh : (optionalHead ++ (X ++ ['>'])).headD 'a' = 'o' := by simp [optionalHead]
    rw [hh]; decide
  have h2 : isWs (lastD (optionalHead ++ (X ++ ['>']))) = false := by
    rw [lastD_append_right _ (by simp), lastD_concat]
    decide
  have htrim := trimChars_eq_self h1 h2
  have harr : stripPre arrayHead (optionalHead ++ (X ++ ['>'])) = none := by
    simp [arrayHead, optionalHead, stripPre]
  simp only [parseF, htrim, harr, Option.none_bind, stripPre_append, Option.some_bind,
    stripSuf_append]

theorem trimChars_cons_ws (c : Char) (hws : isWs c = true) (V : List Char) :
    trimChars (c :: V) = trimChars V := by
  unfold trimChars
  rw [List.dropWhile_cons, hws]
  simp

theorem parseF_mapStep (m : Nat) (K V : List Char)
    (hK : ∀ c ∈ K, c ≠ '<' ∧ c ≠ '>' ∧ c ≠ ',')
    (hKtrim : trimChars K = K)
    (hVne : V ≠ []) (hVh : isWs (V.headD 'a') = false) (hVl : isWs (lastD V) = false) :
    parseF (m + 1) (mapHead ++ (K ++ ',' :: ' ' :: (V ++ ['>']))) =
      match parseF m K with
      | .error e => .error e
      | .ok keyType =>
        match parseF m V with
        | .error e => .error e
        | .ok valueType =>
          if keyType.isValidMapKey then .ok (.map keyType valueType)
          else .error (.invalidMapKey K) := by
  have h1 : isWs ((mapHead ++ (K ++ ',' :: ' ' :: (V ++ ['>']))).headD 'a') = false := by
    have hh : (mapHead ++ (K ++ ',' :: ' ' :: (V ++ ['>']))).headD 'a' = 'm' := by
      simp [mapHead]
    rw [hh]; decide
  have h2 : isWs (lastD (mapHead ++ (K ++ ',' :: ' ' :: (V ++ ['>'])))) = false := by
    rw [lastD_append_right _ (by simp), lastD_append_right _ (by simp)]
    have hc : (',' :: ' ' :: (V ++ ['>'])) = [',', ' '] ++ (V ++ ['>']) := by simp
    rw [hc, lastD_append_right _ (by simp), lastD_append_right _ (by simp)]
    decide
  have htrim := trimChars_eq_self h1 h2
  have harr : stripPre arrayHead (mapHead ++ (K ++ ',' :: ' ' :: (V ++ ['>']))) = none := by
    simp [arrayHead, mapHead, stripPre]
  have hopt : stripPre optionalHead (mapHead ++ (K ++ ',' :: ' ' :: (V ++ ['>']))) = none := by
    simp [optionalHead, mapHead, stripPre]
  have hshape : K ++ ',' :: ' ' :: (V ++ ['>']) = (K ++ ',' :: ' ' :: V) ++ ['>'] := by
    simp
  have hsplit : splitMapTypes (K ++ ',' :: ' ' :: V) =
      .ok (K, V) := by
    unfold splitMapTypes
    have hgo := splitMapGo_no_special K hK (' ' :: V) []
    have htV : trimChars (' ' :: V) = V := by
      rw [trimChars_cons_ws ' ' (by decide), trimChars_eq_self hVh hVl]
    rw [hgo, htV, if_neg hVne]
    simp [hKtrim]
  calc parseF (m + 1) (mapHead ++ (K ++ ',' :: ' ' :: (V ++ ['>'])))
      = parseF (m + 1) (mapHead ++ ((K ++ ',' :: ' ' :: V) ++ ['>'])) := by rw [← hshape]
    _ = _ := by
        rw [← hshape]
        simp only [parseF, htrim, harr, hopt, Option.none_bind, stripPre_append,
          Option.some_bind]
        rw [hshape, stripSuf_append]
        simp only [hsplit]

theorem parseF_namedStep (m : Nat) (s : List Char) (hg : goodNameB s = true) :
    parseF (m + 1) s = .ok (.named s) := by
  cases s with
  | nil => simp [goodNameB] at hg
  | cons c t =>
    simp only [goodNameB, decide_eq_true_eq] at hg
    obtain ⟨ha, hl, hp, hc1, hc2, hc3⟩ := hg
    have ha' : isWs c = false := not_ws_of_alpha ha
    have hlf : isWs (lastD (c :: t)) = false := by
      rcases hb : isWs (lastD (c :: t)) with _ | _
      · rfl
      · exact absurd hb hl
    have htrim : trimChars (c :: t) = c :: t :=
      trimChars_eq_self (by simpa using ha') hlf
    have hn1 : (stripPre arrayHead (c :: t)).bind (stripSuf '>') = none :=
      bind_eq_none_of_shape (by
        rcases hb : hasContainerShape arrayHead (c :: t) with _ | _
        · rfl
        · exact absurd hb hc1)
    have hn2 : (stripPre optionalHead (c :: t)).bind (stripSuf '>') = none :=
      bind_eq_none_of_shape (by
        rcases hb : hasContainerShape optionalHead (c :: t) with _ | _
        · rfl
        · exact absurd hb hc2)
    have hn3 : (stripPre mapHead (c :: t)).bind (stripSuf '>') = none :=
      bind_eq_none_of_shape (by
        rcases hb : hasContainerShape mapHead (c :: t) with _ | _
        · rfl
        · exact absurd hb hc3)
    simp only [isPrimName, decide_eq_true_eq] at hp
    push_neg at hp
    obtain ⟨p1, p2, p3, p4, p5, p6, p7, p8⟩ := hp
    simp only [parseF, htrim, hn1, hn2, hn3, if_neg p1, if_neg p2, if_neg p3,
      if_neg p4, if_neg p5, if_neg p6, if_neg p7, if_neg p8, ha, if_true]

theorem print_ends (t : TypeRef) (hwf : t.wellFormed = true) :
    TypeRef.print t ≠ [] ∧ isWs ((TypeRef.print t).headD 'a') = false ∧
      isWs (lastD (TypeRef.print t)) = false := by
  induction t with
  | string => exact ⟨by decide, by decide, by decide⟩
  | int => exact ⟨by decide, by decide, by decide⟩
  | float => exact ⟨by decide, by decide, by decide⟩
  | bool => exact ⟨by decide, by decide, by decide⟩
  | money => exact ⟨by decide, by decide, by decide⟩
  | datetime => exact ⟨by decide, by decide, by decide⟩
  | uuid => exact ⟨by decide, by decide, by decide⟩
  | bytes => exact ⟨by decide, by decide, by decide⟩
  | array t ih =>
    refine ⟨by simp [TypeRef.print, arrayHead], ?_, ?_⟩
    · have hh : (TypeRef.print (.array t)).headD 'a' = 'a' := by
        simp [TypeRef.print, arrayHead]
      rw [hh]; decide
    · rw [show TypeRef.print (.array t) = (arrayHead ++ t.print) ++ ['>'] by
        simp [TypeRef.print], lastD_concat]
      decide
  | map k v ihk ihv =>
    refine ⟨by simp [TypeRef.print, mapHead], ?_, ?_⟩
    · have hh : (TypeRef.print (.map k v)).headD 'a' = 'm' := by
        simp [TypeRef.print, mapHead]
      rw [hh]; decide
    · rw [show TypeRef.print (.map k v) =
          (mapHead ++ k.print ++ [',', ' '] ++ v.print) ++ ['>'] by
        simp [TypeRef.print], lastD_concat]
      decide
  | optional t ih =>
    refine ⟨by simp [TypeRef.print, optionalHead], ?_, ?_⟩
    · have hh : (TypeRef.print (.optional t)).headD 'a' = 'o' := by
        simp [TypeRef.print, optionalHead]
      rw [hh]; decide
    · rw [show TypeRef.print (.optional t) = (optionalHead ++ t.print) ++ ['>'] by
        simp [TypeRef.print], lastD_concat]
      decide
  | named s =>
    cases s with
    | nil => simp [TypeRef.wellFormed, goodNameB] at hwf
    | cons c t =>
      simp only [TypeRef.wellFormed, goodNameB, decide_eq_true_eq] at hwf
      obtain ⟨ha, hl, _⟩ := hwf
      refine ⟨by simp [TypeRef.print], ?_, ?_⟩
      · simpa [TypeRef.print] using not_ws_of_alpha ha
      · show isWs (lastD (c :: t)) = false
        rcases hb : isWs (lastD (c :: t)) with _ | _
        · rfl
        · exact absurd hb hl

theorem parseF_print_of_wf (t : TypeRef) (hwf : t.wellFormed = true) :
    ∀ n, (TypeRef.print t).length < n → parseF n (TypeRef.print t) = .ok t := by
  induction t with
  | string =>
    intro n hn
    cases n with
    | zero => omega
    | succ m => exact parseF_string_eval m
  | int =>
    intro n hn
    cases n with
    | zero => omega
    | succ m => exact parseF_int_eval m
  | float =>
    intro n hn
    cases n with
    | zero => omega
    | succ m => exact parseF_float_eval m
  | bool =>
    intro n hn
    cases n with
    | zero => omega
    | succ m => exact parseF_bool_eval m
  | money =>
    intro n hn
    cases n with
    | zero => omega
    | succ m => exact parseF_money_eval m
  | datetime =>
    intro n hn
    cases n with
    | zero => omega
    | succ m => exact parseF_datetime_eval m
  | uuid =>
    intro n hn
    cases n with
    | zero => omega
    | succ m => exact parseF_uuid_eval m
  | bytes =>
    intro n hn
    cases n with
    | zero => omega
    | succ m => exact parseF_bytes_eval m
  | array t ih =>
    intro n hn
    cases n with
    | zero => omega
    | succ m =>
      have hwf' : t.wellFormed = true := by simpa [TypeRef.wellFormed] using hwf
      have hlen : (TypeRef.print t).length < m := by
        simp [TypeRef.print, arrayHead] at hn
        omega
      rw [show TypeRef.print (.array t) = arrayHead ++ (TypeRef.print t ++ ['>']) by
        simp [TypeRef.print]]
      rw [parseF_arrayStep, ih hwf' m hlen]
  | optional t ih =>
    intro n hn
    cases n with
    | zero => omega
    | succ m =>
      have hwf' : t.wellFormed = true := by simpa [TypeRef.wellFormed] using hwf
      have hlen : (TypeRef.print t).length < m := by
        simp [TypeRef.print, optionalHead] at hn
        omega
      rw [show TypeRef.print (.optional t) = optionalHead ++ (TypeRef.print t ++ ['>']) by
        simp [TypeRef.print]]
      rw [parseF_optionalStep, ih hwf' m hlen]
  | map k v ihk ihv =>
    intro n hn
    cases n with
    | zero => omega
    | succ m =>
      simp only [TypeRef.wellFormed, Bool.and_eq_true, decide_eq_true_eq] at hwf
      obtain ⟨hk3, hv⟩ := hwf
      have hklen : (TypeRef.print k).length < m := by
        simp [TypeRef.print, mapHead] at hn
        omega
      have hvlen : (TypeRef.print v).length < m := by
        simp [TypeRef.print, mapHead] at hn
        omega
      obtain ⟨hvne, hvh, hvl⟩ := print_ends v hv
      have hkwf : k.wellFormed = true := by
        rcases hk3 with rfl | rfl | rfl <;> rfl
      have hknospec : ∀ c ∈ TypeRef.print k, c ≠ '<' ∧ c ≠ '>' ∧ c ≠ ',' := by
        rcases hk3 with rfl | rfl | rfl <;> decide
      have hktrim : trimChars (TypeRef.print k) = TypeRef.print k := by
        rcases hk3 with rfl | rfl | rfl <;> decide
      rw [show TypeRef.print (.map k v) =
          mapHead ++ (TypeRef.print k ++ ',' :: ' ' :: (TypeRef.print v ++ ['>'])) by
        simp [TypeRef.print]]
      rw [parseF_mapStep m _ _ hknospec hktrim hvne hvh hvl]
      rw [ihk hkwf m hklen, ihv hv m hvlen]
      have hvalid : k.isValidMapKey = true := by
        rcases hk3 with rfl | rfl | rfl <;> rfl
      simp [hvalid]
  | named s =>
    intro n hn
    cases n with
    | zero => omega
    | succ m =>
      have hg : goodNameB s = true := by simpa [TypeRef.wellFormed] using hwf
      exact parseF_namedStep m s hg

/-- C2 (amended): for every well-formed `TypeRef` — map keys drawn from
`{string, int, uuid}` and every `named s` component a `goodNameB` name —
parsing the printed form gives the value back. -/
theorem C2_parse_print_roundtrip (t : TypeRef) (hwf : t.wellFormed = true) :
    TypeRef.parse (TypeRef.print t) = .ok t :=
  parseF_print_of_wf t hwf _ (Nat.lt_succ_self _)

/-- Witness for `C2_parse_print_roundtrip` at the concrete value
`map<string, array<Foo>>`. -/
theorem C2_parse_print_roundtrip_witness :
    (TypeRef.map .string (.array (.named ['F', 'o', 'o']))).wellFormed = true ∧
      TypeRef.parse (TypeRef.print (.map .string (.array (.named ['F', 'o', 'o'])))) =
        .ok (.map .string (.array (.named ['F', 'o', 'o']))) :=
  ⟨by decide, C2_parse_print_roundtrip _ (by decide)⟩

/-- C2 (counterexample): `Named("string")` is a constructible `TypeRef`
whose name is non-empty and starts with a letter, yet its printed form
`"string"` parses back to the primitive `string`, not to
`Named("string")`. -/
theorem C2_counterexample :
    (stringChars ≠ [] ∧ (stringChars.headD 'a').isAlpha = true) ∧
      TypeRef.parse (TypeRef.print (.named stringChars)) = .ok .string ∧
      TypeRef.parse (TypeRef.print (.named stringChars)) ≠
        .ok (.named stringChars) := by
  decide

theorem C3_core (vs : List Char) (f : Nat) (hf : 6 ≤ f) :
    ∃ e, parseF (f + 1) (mapHead ++ (floatChars ++ ',' :: (vs ++ ['>']))) = .error e := by
  have h1 : isWs ((mapHead ++ (floatChars ++ ',' :: (vs ++ ['>']))).headD 'a') = false := by
    have hh : (mapHead ++ (floatChars ++ ',' :: (vs ++ ['>']))).headD 'a' = 'm' := by
      simp [mapHead]
    rw [hh]; decide
  have h2 : isWs (lastD (mapHead ++ (floatChars ++ ',' :: (vs ++ ['>']))))= false := by
    rw [lastD_append_right _ (by simp), lastD_append_right _ (by simp)]
    rw [show (',' :: (vs ++ ['>'])) = [','] ++ (vs ++ ['>']) by simp]
    rw [lastD_append_right _ (by simp)]
    rw [lastD_append_right _ (by simp)]
    decide
  have htrim := trimChars_eq_self h1 h2
  have harr : stripPre arrayHead (mapHead ++ (floatChars ++ ',' :: (vs ++ ['>']))) = none := by
    simp [arrayHead, mapHead, stripPre]
  have hopt : stripPre optionalHead (mapHead ++ (floatChars ++ ',' :: (vs ++ ['>']))) = none := by
    simp [optionalHead, mapHead, stripPre]
  have hshape : floatChars ++ ',' :: (vs ++ ['>']) = (floatChars ++ ',' :: vs) ++ ['>'] := by
    simp
  have hsplit : splitMapTypes (floatChars ++ ',' :: vs) =
      (if trimChars vs = [] then .error .missingMapValue
       else .ok (floatChars, trimChars vs)) := by
    unfold splitMapTypes
    rw [splitMapGo_no_special floatChars (by decide) vs []]
    simp [show trimChars floatChars = floatChars by decide]
  simp only [parseF, htrim, harr, hopt, Option.none_bind, stripPre_append,
    Option.some_bind]
  rw [hshape, stripSuf_append]
  simp only [hsplit]
  obtain ⟨g, rfl⟩ : ∃ g, f = g + 1 := ⟨f - 1, by omega⟩
  by_cases hte : trimChars vs = []
  · simp only [hte, if_pos rfl]
    exact ⟨.missingMapValue, by simp⟩
  · simp only [if_neg hte]
    rw [parseF_float_eval]
    rcases hpv : parseF (g + 1) (trimChars vs) with e | vt
    · exact ⟨e, by simp [hpv]⟩
    · exact ⟨.invalidMapKey floatChars, by simp [hpv, TypeRef.isValidMapKey]⟩

theorem stripPre_eq_some : ∀ (p s r : List Char), stripPre p s = some r → s = p ++ r := by
  intro p
  induction p with
  | nil =>
    intro s r h
    simp only [stripPre, Option.some.injEq] at h
    simpa using h
  | cons c cs ih =>
    intro s r h
    cases s with
    | nil => exact absurd h (by simp [stripPre])
    | cons d ds =>
      unfold stripPre at h
      by_cases hcd : c = d
      · rw [if_pos hcd] at h
        rw [List.cons_append, ← ih ds r h, hcd]
      · rw [if_neg hcd] at h
        cases h

theorem stripSuf_eq_some (c : Char) (s r : List Char) (h : stripSuf c s = some r) :
    s = r ++ [c] := by
  unfold stripSuf at h
  cases hs : s.reverse with
  | nil => rw [hs] at h; cases h
  | cons x rest =>
    rw [hs] at h
    change (if x = c then some rest.reverse else none) = some r at h
    by_cases hxc : x = c
    · rw [if_pos hxc] at h
      injection h with h
      have h2 := congrArg List.reverse hs
      rw [List.reverse_reverse] at h2
      rw [h2, hxc]
      simp [← h]
    · rw [if_neg hxc] at h
      cases h

theorem dropWhile_length_le (p : Char → Bool) (l : List Char) :
    (l.dropWhile p).length ≤ l.length := by
  induction l with
  | nil => simp
  | cons a as ih =>
    rw [List.dropWhile_cons]
    by_cases h : p a
    · simp only [h, if_true, List.length_cons]
      omega
    · simp [h]

theorem trimChars_length_le (s : List Char) : (trimChars s).length ≤ s.length := by
  unfold trimChars
  calc (((s.dropWhile isWs).reverse.dropWhile isWs).reverse).length
      = ((s.dropWhile isWs).reverse.dropWhile isWs).length := List.length_reverse _
    _ ≤ (s.dropWhile isWs).reverse.length := dropWhile_length_le _ _
    _ = (s.dropWhile isWs).length := List.length_reverse _
    _ ≤ s.length := dropWhile_length_le _ _

theorem containerShape_eq (h s inner : List Char)
    (hc : (stripPre h s).bind (stripSuf '>') = some inner) :
    s = h ++ inner ++ ['>'] := by
  cases hp : stripPre h s with
  | none => rw [hp] at hc; cases hc
  | some r =>
    rw [hp] at hc
    simp only [Option.some_bind] at hc
    rw [stripPre_eq_some h s r hp, stripSuf_eq_some '>' r inner hc]
    simp

theorem splitMapGo_length : ∀ (s : List Char) (d : Int) (acc key value : List Char),
    splitMapGo s d acc = .ok (key, value) →
    key.length ≤ acc.length + s.length ∧ value.length ≤ s.length := by
  intro s
  induction s with
  | nil =>
    intro d acc k v h
    exact absurd h (by simp [splitMapGo])
  | cons c rest ih =>
    intro d acc k v h
    unfold splitMapGo at h
    by_cases h1 : c = '<'
    · rw [if_pos h1] at h
      obtain ⟨hk, hv⟩ := ih _ _ _ _ h
      simp only [List.length_append, List.length_singleton] at hk
      constructor
      · simp only [List.length_cons]
        omega
      · simp only [List.length_cons]
        omega
    · rw [if_neg h1] at h
      by_cases h2 : c = '>'
      · rw [if_pos h2] at h
        obtain ⟨hk, hv⟩ := ih _ _ _ _ h
        simp only [List.length_append, List.length_singleton] at hk
        constructor
        · simp only [List.length_cons]
          omega
        · simp only [List.length_cons]
          omega
      · rw [if_neg h2] at h
        by_cases h3 : c = ',' ∧ d = 0
        · rw [if_pos h3] at h
          have h' : (if trimChars rest = [] then
              (.error .missingMapValue : Except TypeParseError (List Char × List Char))
              else .ok (trimChars acc, trimChars rest)) = .ok (k, v) := h
          by_cases h4 : trimChars rest = []
          · rw [if_pos h4] at h'
            cases h'
          · rw [if_neg h4] at h'
            rw [Except.ok.injEq, Prod.mk.injEq] at h'
            obtain ⟨hk, hv⟩ := h'
            subst hk hv
            have ha := trimChars_length_le acc
            have hr := trimChars_length_le rest
            constructor
            · simp only [List.length_cons]
              omega
            · simp only [List.length_cons]
              omega
        · rw [if_neg h3] at h
          obtain ⟨hk, hv⟩ := ih _ _ _ _ h
          simp only [List.length_append, List.length_singleton] at hk
          constructor
          · simp only [List.length_cons]
            omega
          · simp only [List.length_cons]
            omega

theorem parseF_fuel_aux : ∀ (L : Nat) (s : List Char), s.length ≤ L →
    ∀ n m : Nat, s.length < n → s.length < m → parseF n s = parseF m s := by
  intro L
  induction L with
  | zero =>
    intro s hs n m hn hm
    have hsnil : s = [] := List.length_eq_zero.mp (Nat.le_zero.mp hs)
    subst hsnil
    cases n with
    | zero => omega
    | succ a =>
      cases m with
      | zero => omega
      | succ b => rfl
  | succ L ih =>
    intro s hs n m hn hm
    cases n with
    | zero => omega
    | succ a =>
      cases m with
      | zero => omega
      | succ b =>
        simp only [parseF]
        cases harr : (stripPre arrayHead (trimChars s)).bind (stripSuf '>') with
        | some inner =>
          have hdec := containerShape_eq arrayHead (trimChars s) inner harr
          have htl := trimChars_length_le s
          have hlen := congrArg List.length hdec
          simp [arrayHead] at hlen
          simp only []
          rw [ih inner (by omega) a b (by omega) (by omega)]
        | none =>
        cases hopt : (stripPre optionalHead (trimChars s)).bind (stripSuf '>') with
        | some inner =>
          have hdec := containerShape_eq optionalHead (trimChars s) inner hopt
          have htl := trimChars_length_le s
          have hlen := congrArg List.length hdec
          simp [optionalHead] at hlen
          simp only []
          rw [ih inner (by omega) a b (by omega) (by omega)]
        | none =>
        cases hmap : (stripPre mapHead (trimChars s)).bind (stripSuf '>') with
        | some inner =>
          have hdec := containerShape_eq mapHead (trimChars s) inner hmap
          have htl := trimChars_length_le s
          have hlen := congrArg List.length hdec
          simp [mapHead] at hlen
          simp only []
          cases hsplit : splitMapTypes inner with
          | error e => rfl
          | ok kv =>
            obtain ⟨key, value⟩ := kv
            obtain ⟨hkl, hvl⟩ := splitMapGo_length inner 0 [] key value hsplit
            simp only [List.length_nil, Nat.zero_add] at hkl
            simp only []
            rw [ih key (by omega) a b (by omega) (by omega)]
            cases hkey : parseF b key with
            | error e => rfl
            | ok keyType =>
              simp only []
              rw [ih value (by omega) a b (by omega) (by omega)]
        | none => rfl

theorem parseF_fuel (s : List Char) (n m : Nat) (hn : s.length < n)
    (hm : s.length < m) : parseF n s = parseF m s :=
  parseF_fuel_aux s.length s le_rfl n m hn hm

/-- C3 (amended): the map-key half of the claim holds in general — for
every type string of map shape (`map<` + inner + `>` after trimming)
whose inner text splits at the top-level comma into a key part parsing
to a type that is not a valid map key (not `string`, `int` or `uuid`),
`TypeRef::parse` returns an error — but the container-head half is
refuted: an unknown container head such as `list<string>` or `set<int>`
is silently accepted as a `Named` reference rather than rejected. -/
theorem C3_amended (s inner key value : List Char) (keyType : TypeRef)
    (hshape : (stripPre mapHead (trimChars s)).bind (stripSuf '>') = some inner)
    (hsplit : splitMapTypes inner = .ok (key, value))
    (hkey : TypeRef.parse key = .ok keyType)
    (hbad : keyType.isValidMapKey = false) :
    (∃ e, TypeRef.parse s = .error e) ∧
      TypeRef.parse ['l', 'i', 's', 't', '<', 's', 't', 'r', 'i', 'n', 'g', '>'] =
        .ok (.named ['l', 'i', 's', 't', '<', 's', 't', 'r', 'i', 'n', 'g', '>']) ∧
      TypeRef.parse ['s', 'e', 't', '<', 'i', 'n', 't', '>'] =
        .ok (.named ['s', 'e', 't', '<', 'i', 'n', 't', '>']) := by
  refine ⟨?_, by decide, by decide⟩
  have hdec := containerShape_eq mapHead (trimChars s) inner hshape
  have htl := trimChars_length_le s
  have hlen := congrArg List.length hdec
  simp [mapHead] at hlen
  obtain ⟨hkl, hvl⟩ := splitMapGo_length inner 0 [] key value hsplit
  simp only [List.length_nil, Nat.zero_add] at hkl
  have harr2 : (stripPre arrayHead (trimChars s)).bind (stripSuf '>') = none := by
    rw [hdec]
    simp [arrayHead, mapHead, stripPre]
  have hopt2 : (stripPre optionalHead (trimChars s)).bind (stripSuf '>') = none := by
    rw [hdec]
    simp [optionalHead, mapHead, stripPre]
  have hkeyfuel : parseF s.length key = .ok keyType := by
    rw [parseF_fuel key s.length (key.length + 1) (by omega) (Nat.lt_succ_self _)]
    exact hkey
  have hres : TypeRef.parse s =
      match parseF s.length value with
      | .error e => .error e
      | .ok valueType =>
        if keyType.isValidMapKey then .ok (.map keyType valueType)
        else .error (.invalidMapKey key) := by
    unfold TypeRef.parse
    simp only [parseF, harr2, hopt2, hshape, hsplit, hkeyfuel]
  cases hv : parseF s.length value with
  | error e => exact ⟨e, by rw [hres, hv]⟩
  | ok vt =>
    exact ⟨.invalidMapKey key, by rw [hres, hv]; simp [hbad]⟩

/-- Witness for `C3_amended` at the claim's own example
`map<float, string>`. -/
theorem C3_amended_witness :
    ((stripPre mapHead (trimChars ['m', 'a', 'p', '<', 'f', 'l', 'o', 'a', 't',
          ',', ' ', 's', 't', 'r', 'i', 'n', 'g', '>'])).bind (stripSuf '>') =
        some ['f', 'l', 'o', 'a', 't', ',', ' ', 's', 't', 'r', 'i', 'n', 'g'] ∧
      splitMapTypes ['f', 'l', 'o', 'a', 't', ',', ' ', 's', 't', 'r', 'i', 'n', 'g'] =
        .ok (['f', 'l', 'o', 'a', 't'], ['s', 't', 'r', 'i', 'n', 'g']) ∧
      TypeRef.parse ['f', 'l', 'o', 'a', 't'] = .ok .float ∧
      TypeRef.isValidMapKey .float = false) ∧
    (∃ e, TypeRef.parse ['m', 'a', 'p', '<', 'f', 'l', 'o', 'a', 't',
      ',', ' ', 's', 't', 'r', 'i', 'n', 'g', '>'] = .error e) :=
  ⟨⟨by decide, by decide, by decide, by decide⟩,
    (C3_amended
      ['m', 'a', 'p', '<', 'f', 'l', 'o', 'a', 't', ',', ' ', 's', 't', 'r', 'i', 'n', 'g', '>']
      ['f', 'l', 'o', 'a', 't', ',', ' ', 's', 't', 'r', 'i', 'n', 'g']
      ['f', 'l', 'o', 'a', 't'] ['s', 't', 'r', 'i', 'n', 'g'] .float
      (by decide) (by decide) (by decide) (by decide)).1⟩

/-- C3 (counterexample): `"list<string>"` uses an unknown container head
but is accepted by `TypeRef::parse` as a `Named` reference instead of
being rejected. -/
theorem C3_counterexample :
    TypeRef.parse ['l', 'i', 's', 't', '<', 's', 't', 'r', 'i', 'n', 'g', '>'] =
      .ok (.named ['l', 'i', 's', 't', '<', 's', 't', 'r', 'i', 'n', 'g', '>']) := by
  decide

/-! ## Intent model (`src/model/document.rs`, `src/model/specs.rs`)

Intent ids (`uuid::Uuid`, 128-bit) are modelled as natural numbers; names
and messages are Lean `String`s.  A `TypeRef` embedded in a spec yields
its named references as `String`s via `String.mk`. -/

/-- Model of `uuid::Uuid`: an opaque identifier, here a natural number. -/
abbrev Uuid := Nat

/-- `IntentKind` from `src/model/document.rs`: the closed set of kinds. -/
inductive IntentKind where
  | type
  | endpoint
  | workflow
  | service
  | contractTest
  | migration
  | function
  | pipeline
  | template
  | enum
  | module
  | command
  | trait
  deriving DecidableEq, Repr

/-- The `Display` implementation for `IntentKind`. -/
def IntentKind.display : IntentKind → String
  | .type => "Type"
  | .endpoint => "Endpoint"
  | .workflow => "Workflow"
  | .service => "Service"
  | .contractTest => "ContractTest"
  | .migration => "Migration"
  | .function => "Function"
  | .pipeline => "Pipeline"
  | .template => "Template"
  | .enum => "Enum"
  | .module => "Module"
  | .command => "Command"
  | .trait => "Trait"

/-- `HttpMethod` from `src/model/specs.rs`. -/
inductive HttpMethod where
  | get
  | post
  | put
  | patch
  | delete
  deriving DecidableEq, Repr

/-- The `Display` implementation for `HttpMethod`. -/
def HttpMethod.display : HttpMethod → String
  | .get => "GET"
  | .post => "POST"
  | .put => "PUT"
  | .patch => "PATCH"
  | .delete => "DELETE"

/-- `EffectKind` from `src/model/specs.rs`. -/
inductive EffectKind where
  | httpCall
  | dbRead
  | dbWrite
  | dbDelete
  | emitEvent
  deriving DecidableEq, Repr

/-- The `Display` implementation for `EffectKind`. -/
def EffectKind.display : EffectKind → String
  | .httpCall => "HttpCall"
  | .dbRead => "DbRead"
  | .dbWrite => "DbWrite"
  | .dbDelete => "DbDelete"
  | .emitEvent => "EmitEvent"

/-- `OnErrorStrategy` from `src/model/specs.rs`. -/
inductive OnErrorStrategy where
  | abort
  | continueOn
  | retry
  deriving DecidableEq, Repr

/-- `BackoffStrategy` from `src/model/specs.rs`. -/
inductive BackoffStrategy where
  | constant
  | linear
  | exponential
  deriving DecidableEq, Repr

/-- `FieldDef` from `src/model/types.rs`: a field of a `Type` spec. -/
structure FieldDef where
  fieldType : TypeRef
  required : Bool
  deriving DecidableEq, Repr

/-- `TypeSpec`: `fields: HashMap<name, FieldDef>`, as an association list. -/
structure TypeSpec where
  fields : List (String × FieldDef)
  deriving DecidableEq, Repr

/-- `ServiceOperation` from `src/model/specs.rs`. -/
structure ServiceOperation where
  method : HttpMethod
  path : String
  input : String
  output : String
  deriving DecidableEq, Repr

/-- `ServiceSpec` from `src/model/specs.rs`. -/
structure ServiceSpec where
  protocol : String
  baseUrl : String
  operations : List (String × ServiceOperation)
  deriving DecidableEq, Repr

/-- `TransformStep` from `src/model/specs.rs` (the `raise_if` condition is
not read by any verified function and is omitted). -/
structure TransformStep where
  name : String
  assign : List (String × String)
  deriving DecidableEq, Repr

/-- `EffectStep` from `src/model/specs.rs` (the `query` JSON subtree and
`input_mapping` are not read by any verified function and are omitted). -/
structure EffectStep where
  effect : EffectKind
  service : Option String
  operation : Option String
  table : Option String
  topic : Option String
  outputBinding : Option String
  onError : OnErrorStrategy
  deriving DecidableEq, Repr

/-- `WorkflowStep` from `src/model/specs.rs`. -/
inductive WorkflowStep where
  | transform (t : TransformStep)
  | effect (e : EffectStep)
  deriving DecidableEq, Repr

/-- `WorkflowSpec` from `src/model/specs.rs`. -/
structure WorkflowSpec where
  input : String
  output : String
  context : List (String × TypeRef)
  steps : List WorkflowStep
  deriving DecidableEq, Repr

/-- `RetryPolicy` from `src/model/specs.rs`. -/
structure RetryPolicy where
  max : Nat
  backoff : BackoffStrategy
  deriving DecidableEq, Repr

/-- `EndpointPolicies` from `src/model/specs.rs`. -/
structure EndpointPolicies where
  timeoutMs : Option Nat
  retries : Option RetryPolicy
  deriving DecidableEq, Repr

/-- `AuthzConfig` from `src/model/specs.rs`. -/
structure AuthzConfig where
  principal : String
  scope : String
  deriving DecidableEq, Repr

/-- `EndpointError` from `src/model/specs.rs`. -/
structure EndpointError where
  code : String
  status : Nat
  retryable : Bool
  deriving DecidableEq, Repr

/-- `EndpointSpec` from `src/model/specs.rs`. -/
structure EndpointSpec where
  method : HttpMethod
  path : String
  input : String
  output : String
  workflow : String
  idempotencyKey : Option String
  policies : EndpointPolicies
  authz : Option AuthzConfig
  errors : List EndpointError
  deriving DecidableEq, Repr

/-- `ContractTestSpec` from `src/model/specs.rs` (the `scenarios` payload
is not read by any verified function and is omitted). -/
structure ContractTestSpec where
  service : String
  operation : String
  deriving DecidableEq, Repr

/-- The `op` tags of `MigrationOperation`; the per-operation payloads are
not read by any verified function and are omitted. -/
inductive MigrationOp where
  | createTable
  | addColumn
  | dropColumn
  | createIndex
  | dropIndex
  deriving DecidableEq, Repr

/-- `MigrationSpec` from `src/model/specs.rs`. -/
structure MigrationSpec where
  version : Nat
  table : String
  operations : List MigrationOp
  deriving DecidableEq, Repr

/-- `FunctionParam` from `src/model/specs.rs`. -/
structure FunctionParam where
  name : String
  paramType : String
  deriving DecidableEq, Repr

/-- `FunctionSpec` from `src/model/specs.rs`, restricted to the fields the
middle-end reads (parameters and the return type; the expression body is
only structurally validated, and `typecheck_expression` is a no-op). -/
structure FunctionSpec where
  parameters : List FunctionParam
  returnType : String
  deriving DecidableEq, Repr

/-- `PipelineStage` from `src/model/specs.rs` (fields the middle-end reads). -/
structure PipelineStage where
  name : String
  function : String
  deriving DecidableEq, Repr

/-- `PipelineSpec` from `src/model/specs.rs` (fields the middle-end reads). -/
structure PipelineSpec where
  input : String
  output : String
  stages : List PipelineStage
  deriving DecidableEq, Repr

/-- `TemplateSpec` from `src/model/specs.rs` (fields the middle-end reads). -/
structure TemplateSpec where
  input : String
  outputFile : String
  template : List String
  deriving DecidableEq, Repr

/-- `EnumVariant` from `src/model/specs.rs` (fields the middle-end reads). -/
structure EnumVariant where
  name : String
  deriving DecidableEq, Repr

/-- `EnumSpec` from `src/model/specs.rs` (fields the middle-end reads). -/
structure EnumSpec where
  variants : List EnumVariant
  deriving DecidableEq, Repr

/-- `ModuleChild` from `src/model/specs.rs`. -/
structure ModuleChild where
  name : String
  file : String
  deriving DecidableEq, Repr

/-- `ModuleSpec` from `src/model/specs.rs` (fields the middle-end reads). -/
structure ModuleSpec where
  path : String
  children : List ModuleChild
  deriving DecidableEq, Repr

/-- `CommandArg` from `src/model/specs.rs` (fields the middle-end reads). -/
structure CommandArg where
  name : String
  argType : String
  deriving DecidableEq, Repr

/-- `CommandSpec` from `src/model/specs.rs` (fields the middle-end reads). -/
structure CommandSpec where
  command : String
  handler : String
  args : List CommandArg
  deriving DecidableEq, Repr

/-- `TraitMethod` from `src/model/specs.rs` (fields the middle-end reads). -/
structure TraitMethod where
  name : String
  parameters : List FunctionParam
  returnType : String
  deriving DecidableEq, Repr

/-- `TraitSpec` from `src/model/specs.rs` (fields the middle-end reads). -/
structure TraitSpec where
  methods : List TraitMethod
  implementors : List String
  deriving DecidableEq, Repr

/-- The `spec` JSON subtree of an intent document, modelled by shape.  The
`malformed` constructor stands for a spec JSON that fails serde
deserialization under its kind's schema, so each `as_*_spec` accessor
below succeeds exactly when the spec has the kind's shape. -/
inductive SpecData where
  | typeS (s : TypeSpec)
  | serviceS (s : ServiceSpec)
  | workflowS (s : WorkflowSpec)
  | endpointS (s : EndpointSpec)
  | contractTestS (s : ContractTestSpec)
  | migrationS (s : MigrationSpec)
  | functionS (s : FunctionSpec)
  | pipelineS (s : PipelineSpec)
  | templateS (s : TemplateSpec)
  | enumS (s : EnumSpec)
  | moduleS (s : ModuleSpec)
  | commandS (s : CommandSpec)
  | traitS (s : TraitSpec)
  | malformed
  deriving DecidableEq, Repr

/-- `IntentDocument` from `src/model/document.rs` (the envelope). -/
structure IntentDocument where
  schemaVersion : String
  id : Uuid
  kind : IntentKind
  name : String
  spec : SpecData
  sourceFile : Option String
  deriving DecidableEq, Repr

/-- `TypeRef::get_named_references`: all `Named` names in a type, in
left-to-right order, as `String`s. -/
def TypeRef.getNamedReferences : TypeRef → List String
  | .named s => [String.mk s]
  | .array inner => inner.getNamedReferences
  | .map k v => k.getNamedReferences ++ v.getNamedReferences
  | .optional inner => inner.getNamedReferences
  | _ => []

/-- `TypeSpec::get_type_references`: the named references of every field
type. -/
def TypeSpec.getTypeReferences (s : TypeSpec) : List String :=
  s.fields.flatMap (fun f => f.2.fieldType.getNamedReferences)

/-- `IntentDocument::as_type_spec` (and the accessors that follow): serde
deserialization of the spec subtree, modelled as succeeding exactly when
the spec has the kind's shape. -/
def IntentDocument.asTypeSpec (d : IntentDocument) : Except Unit TypeSpec :=
  match d.spec with
  | .typeS s => .ok s
  | _ => .error ()

/-- `IntentDocument::as_service_spec`. -/
def IntentDocument.asServiceSpec (d : IntentDocument) : Except Unit ServiceSpec :=
  match d.spec with
  | .serviceS s => .ok s
  | _ => .error ()

/-- `IntentDocument::as_workflow_spec`. -/
def IntentDocument.asWorkflowSpec (d : IntentDocument) : Except Unit WorkflowSpec :=
  match d.spec with
  | .workflowS s => .ok s
  | _ => .error ()

/-- `IntentDocument::as_endpoint_spec`. -/
def IntentDocument.asEndpointSpec (d : IntentDocument) : Except Unit EndpointSpec :=
  match d.spec with
  | .endpointS s => .ok s
  | _ => .error ()

/-- `IntentDocument::as_contract_test_spec`. -/
def IntentDocument.asContractTestSpec (d : IntentDocument) :
    Except Unit ContractTestSpec :=
  match d.spec with
  | .contractTestS s => .ok s
  | _ => .error ()

/-- `IntentDocument::as_migration_spec`. -/
def IntentDocument.asMigrationSpec (d : IntentDocument) : Except Unit MigrationSpec :=
  match d.spec with
  | .migrationS s => .ok s
  | _ => .error ()

/-- `IntentDocument::as_function_spec`. -/
def IntentDocument.asFunctionSpec (d : IntentDocument) : Except Unit FunctionSpec :=
  match d.spec with
  | .functionS s => .ok s
  | _ => .error ()

/-- `IntentDocument::as_pipeline_spec`. -/
def IntentDocument.asPipelineSpec (d : IntentDocument) : Except Unit PipelineSpec :=
  match d.spec with
  | .pipelineS s => .ok s
  | _ => .error ()

/-- `IntentDocument::as_template_spec`. -/
def IntentDocument.asTemplateSpec (d : IntentDocument) : Except Unit TemplateSpec :=
  match d.spec with
  | .templateS s => .ok s
  | _ => .error ()

/-- `IntentDocument::as_enum_spec`. -/
def IntentDocument.asEnumSpec (d : IntentDocument) : Except Unit EnumSpec :=
  match d.spec with
  | .enumS s => .ok s
  | _ => .error ()

/-- `IntentDocument::as_module_spec`. -/
def IntentDocument.asModuleSpec (d : IntentDocument) : Except Unit ModuleSpec :=
  match d.spec with
  | .moduleS s => .ok s
  | _ => .error ()

/-- `IntentDocument::as_command_spec`. -/
def IntentDocument.asCommandSpec (d : IntentDocument) : Except Unit CommandSpec :=
  match d.spec with
  | .commandS s => .ok s
  | _ => .error ()

/-- `IntentDocument::as_trait_spec`. -/
def IntentDocument.asTraitSpec (d : IntentDocument) : Except Unit TraitSpec :=
  match d.spec with
  | .traitS s => .ok s
  | _ => .error ()

/-- `IntentDocument::get_type_references` from `src/model/specs.rs`. -/
def IntentDocument.getTypeReferences (d : IntentDocument) : List String :=
  match d.kind with
  | .type =>
    match d.asTypeSpec with
    | .ok s => s.getTypeReferences
    | .error _ => []
  | .workflow =>
    match d.asWorkflowSpec with
    | .ok s =>
      [s.input, s.output] ++
        s.context.flatMap (fun kv => kv.2.getNamedReferences)
    | .error _ => []
  | .endpoint =>
    match d.asEndpointSpec with
    | .ok s => [s.input, s.output]
    | .error _ => []
  | .service =>
    match d.asServiceSpec with
    | .ok s => s.operations.flatMap (fun op => [op.2.input, op.2.output])
    | .error _ => []
  | .function =>
    match d.asFunctionSpec with
    | .ok s => s.parameters.map (fun p => p.paramType) ++ [s.returnType]
    | .error _ => []
  | .pipeline =>
    match d.asPipelineSpec with
    | .ok s => [s.input, s.output]
    | .error _ => []
  | .trait =>
    match d.asTraitSpec with
    | .ok s =>
      s.methods.flatMap (fun m =>
        m.parameters.map (fun p => p.paramType) ++ [m.returnType]) ++
        s.implementors
    | .error _ => []
  | .contractTest | .migration | .template | .enum | .module | .command => []

/-- `IntentDocument::get_workflow_reference` from `src/model/specs.rs`. -/
def IntentDocument.getWorkflowReference (d : IntentDocument) : Option String :=
  match d.kind with
  | .endpoint =>
    match d.asEndpointSpec with
    | .ok s => some s.workflow
    | .error _ => none
  | _ => none

/-- `IntentDocument::get_service_references` from `src/model/specs.rs`. -/
def IntentDocument.getServiceReferences (d : IntentDocument) : List String :=
  match d.kind with
  | .workflow =>
    match d.asWorkflowSpec with
    | .ok s =>
      s.steps.filterMap (fun step =>
        match step with
        | .effect e => if e.effect = .httpCall then e.service else none
        | _ => none)
    | .error _ => []
  | .contractTest =>
    match d.asContractTestSpec with
    | .ok s => [s.service]
    | .error _ => []
  | _ => []

/-! ## Intent store (`src/parser/loader.rs`) -/

/-- First-match association-list lookup (the model of `HashMap::get`). -/
def lookupA {κ α : Type} [DecidableEq κ] (k : κ) : List (κ × α) → Option α
  | [] => none
  | (k2, v) :: rest => if k2 = k then some v else lookupA k rest

/-- `IntentStore` from `src/parser/loader.rs`: the three `HashMap` indices
as association lists in insertion order. -/
structure IntentStore where
  byId : List (Uuid × IntentDocument)
  byKindName : List ((IntentKind × String) × Uuid)
  byName : List (String × List Uuid)
  deriving DecidableEq, Repr

/-- `IntentStore::new`. -/
def IntentStore.empty : IntentStore := ⟨[], [], []⟩

/-- `HashMap::contains_key` on the id index. -/
def IntentStore.containsId (S : IntentStore) (i : Uuid) : Bool :=
  (lookupA i S.byId).isSome

/-- `HashMap::contains_key` on the `(kind, name)` index. -/
def IntentStore.containsKindName (S : IntentStore) (k : IntentKind) (n : String) : Bool :=
  (lookupA (k, n) S.byKindName).isSome

/-- The `by_name.entry(name).or_default().push(id)` update. -/
def pushName (name : String) (id : Uuid) :
    List (String × List Uuid) → List (String × List Uuid)
  | [] => [(name, [id])]
  | (n, ids) :: rest =>
    if n = name then (n, ids ++ [id]) :: rest
    else (n, ids) :: pushName name id rest

/-- `IntentStore::add`: fail on a duplicate id or a duplicate
`(kind, name)` pair, otherwise insert into all three indices. -/
def IntentStore.add (S : IntentStore) (doc : IntentDocument) :
    Except String IntentStore :=
  if S.containsId doc.id then
    .error ("Duplicate intent ID: " ++ toString doc.id)
  else if S.containsKindName doc.kind doc.name then
    .error ("Duplicate intent name '" ++ doc.name ++ "' for kind " ++
      doc.kind.display)
  else
    .ok
      { byId := S.byId ++ [(doc.id, doc)]
        byKindName := S.byKindName ++ [((doc.kind, doc.name), doc.id)]
        byName := pushName doc.name doc.id S.byName }

/-- One `add` call in a sequence: on failure the store is returned
unchanged (the source bails before touching any index). -/
def IntentStore.addOrKeep (S : IntentStore) (d : IntentDocument) : IntentStore :=
  match S.add d with
  | .ok S2 => S2
  | .error _ => S

/-- A sequence of `add` calls starting from the empty store, failures
leaving the store unchanged. -/
def loadSeq (ds : List IntentDocument) : IntentStore :=
  ds.foldl IntentStore.addOrKeep IntentStore.empty

/-- `IntentStore::iter` / `by_id.values()`, with the model's fixed
insertion-order iteration. -/
def IntentStore.docs (S : IntentStore) : List IntentDocument :=
  S.byId.map Prod.snd

/-- `IntentStore::get`. -/
def IntentStore.get (S : IntentStore) (i : Uuid) : Option IntentDocument :=
  lookupA i S.byId

/-- `IntentStore::get_by_kind_name`. -/
def IntentStore.getByKindName (S : IntentStore) (k : IntentKind) (n : String) :
    Option IntentDocument :=
  (lookupA (k, n) S.byKindName).bind S.get

/-- `IntentStore::get_by_kind`. -/
def IntentStore.getByKind (S : IntentStore) (k : IntentKind) : List IntentDocument :=
  S.docs.filter (fun d => d.kind = k)

/-- `IntentStore::types`. -/
def IntentStore.types (S : IntentStore) : List IntentDocument := S.getByKind .type

/-- `IntentStore::endpoints`. -/
def IntentStore.endpoints (S : IntentStore) : List IntentDocument := S.getByKind .endpoint

/-- `IntentStore::workflows`. -/
def IntentStore.workflows (S : IntentStore) : List IntentDocument := S.getByKind .workflow

/-- `IntentStore::services`. -/
def IntentStore.services (S : IntentStore) : List IntentDocument := S.getByKind .service

/-- `IntentStore::contract_tests`. -/
def IntentStore.contractTests (S : IntentStore) : List IntentDocument :=
  S.getByKind .contractTest

/-- `IntentStore::migrations`. -/
def IntentStore.migrations (S : IntentStore) : List IntentDocument := S.getByKind .migration

/-- `IntentStore::len`. -/
def IntentStore.size (S : IntentStore) : Nat := S.byId.length

/-! ## Store uniqueness (claim C4) -/

theorem lookupA_isSome_iff {κ α : Type} [DecidableEq κ] (k : κ) (l : List (κ × α)) :
    (lookupA k l).isSome = true ↔ k ∈ l.map Prod.fst := by
  induction l with
  | nil => simp [lookupA]
  | cons p rest ih =>
    obtain ⟨k2, v⟩ := p
    by_cases h : k2 = k
    · subst h
      simp [lookupA]
    · simp only [lookupA, if_neg h, List.map_cons, List.mem_cons]
      rw [ih]
      constructor
      · exact Or.inr
      · rintro (rfl | hm)
        · exact absurd rfl h
        · exact hm

/-- The coupling invariant of the three store indices: id keys are the
documents' ids, `(kind, name)` keys are the documents' pairs, and both
are duplicate-free. -/
def storeInv (S : IntentStore) : Prop :=
  S.byId.map Prod.fst = S.byId.map (fun p => p.2.id) ∧
    S.byKindName.map Prod.fst = S.byId.map (fun p => (p.2.kind, p.2.name)) ∧
    (S.byId.map (fun p => p.2.id)).Nodup ∧
    (S.byId.map (fun p => (p.2.kind, p.2.name))).Nodup

theorem storeInv_empty : storeInv IntentStore.empty :=
  ⟨rfl, rfl, List.nodup_nil, List.nodup_nil⟩

theorem storeInv_addOrKeep {S : IntentStore} (h : storeInv S) (d : IntentDocument) :
    storeInv (S.addOrKeep d) := by
  obtain ⟨i1, i2, i3, i4⟩ := h
  unfold IntentStore.addOrKeep IntentStore.add
  by_cases h1 : S.containsId d.id
  · simp only [h1, if_true]
    exact ⟨i1, i2, i3, i4⟩
  · by_cases h2 : S.containsKindName d.kind d.name
    · simp only [h1, h2, if_true, if_false, Bool.false_eq_true]
      exact ⟨i1, i2, i3, i4⟩
    · simp only [h1, h2, if_false, Bool.false_eq_true]
      have hid : d.id ∉ S.byId.map (fun p => p.2.id) := by
        rw [← i1]
        intro hmem
        exact h1 ((lookupA_isSome_iff d.id S.byId).mpr hmem)
      have hkn : (d.kind, d.name) ∉ S.byId.map (fun p => (p.2.kind, p.2.name)) := by
        rw [← i2]
        intro hmem
        exact h2 ((lookupA_isSome_iff (d.kind, d.name) S.byKindName).mpr hmem)
      refine ⟨?_, ?_, ?_, ?_⟩
      · simp [i1]
      · simp [i2]
      · simp only [List.map_append, List.map_cons, List.map_nil]
        rw [List.nodup_append]
        exact ⟨i3, List.nodup_singleton _, by simpa using hid⟩
      · simp only [List.map_append, List.map_cons, List.map_nil]
        rw [List.nodup_append]
        exact ⟨i4, List.nodup_singleton _, by simpa using hkn⟩

theorem storeInv_foldl (ds : List IntentDocument) :
    ∀ S, storeInv S → storeInv (ds.foldl IntentStore.addOrKeep S) := by
  induction ds with
  | nil => exact fun S h => h
  | cons d ds ih =>
    intro S h
    exact ih _ (storeInv_addOrKeep h d)

theorem storeInv_loadSeq (ds : List IntentDocument) : storeInv (loadSeq ds) :=
  storeInv_foldl ds IntentStore.empty storeInv_empty

/-- C4: `IntentStore::add` fails exactly when the store already holds a
document with the same id or the same `(kind, name)` pair; a failing
`add` leaves the store unchanged; and consequently, after any sequence of
`add` calls starting from the empty store, document ids and
`(kind, name)` pairs are each duplicate-free. -/
theorem C4_store_uniqueness :
    (∀ (ds : List IntentDocument) (d : IntentDocument),
        ((loadSeq ds).add d).isOk = false ↔
          ((∃ d2 ∈ (loadSeq ds).docs, d2.id = d.id) ∨
            (∃ d2 ∈ (loadSeq ds).docs, d2.kind = d.kind ∧ d2.name = d.name))) ∧
      (∀ (S : IntentStore) (d : IntentDocument),
        (S.add d).isOk = false → S.addOrKeep d = S) ∧
      (∀ ds : List IntentDocument,
        ((loadSeq ds).docs.map (fun d => d.id)).Nodup ∧
          ((loadSeq ds).docs.map (fun d => (d.kind, d.name))).Nodup) := by
  refine ⟨?_, ?_, ?_⟩
  · intro ds d
    obtain ⟨i1, i2, _, _⟩ := storeInv_loadSeq ds
    have hcid : (loadSeq ds).containsId d.id = true ↔
        ∃ d2 ∈ (loadSeq ds).docs, d2.id = d.id := by
      unfold IntentStore.containsId
      rw [lookupA_isSome_iff, i1]
      simp only [IntentStore.docs, List.mem_map]
      constructor
      · rintro ⟨p, hp, he⟩
        exact ⟨p.2, ⟨p, hp, rfl⟩, he⟩
      · rintro ⟨d2, ⟨p, hp, hpe⟩, he⟩
        exact ⟨p, hp, by rw [hpe]; exact he⟩
    have hckn : (loadSeq ds).containsKindName d.kind d.name = true ↔
        ∃ d2 ∈ (loadSeq ds).docs, d2.kind = d.kind ∧ d2.name = d.name := by
      unfold IntentStore.containsKindName
      rw [lookupA_isSome_iff, i2]
      simp only [IntentStore.docs, List.mem_map]
      constructor
      · rintro ⟨p, hp, he⟩
        exact ⟨p.2, ⟨p, hp, rfl⟩, congrArg Prod.fst he, congrArg Prod.snd he⟩
      · rintro ⟨d2, ⟨p, hp, hpe⟩, he1, he2⟩
        refine ⟨p, hp, ?_⟩
        rw [hpe, he1, he2]
    rw [← hcid, ← hckn]
    unfold IntentStore.add
    by_cases h1 : (loadSeq ds).containsId d.id
    · simp [h1, Except.isOk, Except.toBool]
    · by_cases h2 : (loadSeq ds).containsKindName d.kind d.name
      · simp [h1, h2, Except.isOk, Except.toBool]
      · simp [h1, h2, Except.isOk, Except.toBool]
  · intro S d hfail
    unfold IntentStore.addOrKeep
    rcases hadd : S.add d with e | S2
    · rfl
    · rw [hadd] at hfail
      simp [Except.isOk, Except.toBool] at hfail
  · intro ds
    obtain ⟨_, _, i3, i4⟩ := storeInv_loadSeq ds
    constructor
    · simpa [IntentStore.docs, List.map_map, Function.comp] using i3
    · simpa [IntentStore.docs, List.map_map, Function.comp] using i4

/-- Witness for `C4_store_uniqueness`: adding the same document twice
fails and leaves the store unchanged. -/
theorem C4_store_uniqueness_witness :
    ((loadSeq [⟨"1.0", 1, .type, "A", .typeS ⟨[]⟩, none⟩]).add
        ⟨"1.0", 1, .type, "A", .typeS ⟨[]⟩, none⟩).isOk = false ∧
      (loadSeq [⟨"1.0", 1, .type, "A", .typeS ⟨[]⟩, none⟩]).addOrKeep
          ⟨"1.0", 1, .type, "A", .typeS ⟨[]⟩, none⟩ =
        loadSeq [⟨"1.0", 1, .type, "A", .typeS ⟨[]⟩, none⟩] :=
  ⟨by decide, C4_store_uniqueness.2.1 _ _ (by decide)⟩

/-! ## Validation results (`src/model/error.rs`, `src/validation/result.rs`) -/

/-- `Severity` from `src/model/error.rs`. -/
inductive Severity where
  | error
  | warning
  | info
  deriving DecidableEq, Repr

/-- `StructuredLocation` from `src/model/error.rs`. -/
structure StructuredLocation where
  file : String
  path : String
  deriving DecidableEq, Repr

/-- `StructuredError` from `src/model/error.rs`. -/
structure StructuredError where
  code : String
  severity : Severity
  message : String
  location : Option StructuredLocation
  deriving DecidableEq, Repr

/-- `ValidationResult` from `src/validation/result.rs`. -/
structure ValidationResult where
  errors : List StructuredError
  warnings : List StructuredError
  deriving DecidableEq, Repr

/-- `ValidationResult::new`. -/
def ValidationResult.empty : ValidationResult := ⟨[], []⟩

/-- `ValidationResult::add_error`. -/
def ValidationResult.addError (r : ValidationResult) (code message : String)
    (location : Option StructuredLocation) : ValidationResult :=
  { r with errors := r.errors ++ [⟨code, .error, message, location⟩] }

/-- `ValidationResult::add_warning`. -/
def ValidationResult.addWarning (r : ValidationResult) (code message : String)
    (location : Option StructuredLocation) : ValidationResult :=
  { r with warnings := r.warnings ++ [⟨code, .warning, message, location⟩] }

/-- `ValidationResult::merge`. -/
def ValidationResult.mergeWith (r other : ValidationResult) : ValidationResult :=
  ⟨r.errors ++ other.errors, r.warnings ++ other.warnings⟩

/-- `ValidationResult::is_valid`. -/
def ValidationResult.isValid (r : ValidationResult) : Bool := r.errors.isEmpty

/-- The `location(doc, path)` helper used throughout validation. -/
def locOf (doc : IntentDocument) (path : String) : Option StructuredLocation :=
  some ⟨doc.sourceFile.getD "", path⟩

/-! ## Native/engine allowlist and type checking helpers
(`src/validation/typecheck.rs`) -/

/-- The `NATIVE_TYPES` allowlist from `src/validation/typecheck.rs`. -/
def nativeTypes : List String :=
  ["String", "string", "str", "bool", "i32", "i64", "u32", "u64", "f32", "f64", "usize",
   "Vec", "HashMap", "HashSet", "BTreeMap", "Option", "Result", "Box",
   "serde_json::Value", "JsonValue",
   "uuid::Uuid", "Uuid",
   "IntentDocument", "IntentKind", "IntentStore", "IntentSummary",
   "TypeRef", "TypeSpec", "FieldDef", "TypeParseError",
   "Expression", "BinaryOp", "UnaryOp", "Pattern", "MatchArm", "LetBinding",
   "FunctionSpec", "FunctionParam", "ReturnType", "GenericParam",
   "PipelineSpec", "PipelineStage", "StageErrorStrategy",
   "TemplateSpec", "TemplateHelper",
   "EnumSpec", "EnumVariant", "VariantData",
   "ModuleSpec", "ModuleChild",
   "CommandSpec", "CommandArg", "ExitCode",
   "TraitSpec", "TraitMethod", "AssociatedType",
   "ServiceSpec", "ServiceOperation", "HttpMethod",
   "WorkflowSpec", "WorkflowStep", "TransformStep", "EffectStep", "RaiseCondition",
   "EffectKind", "OnErrorStrategy",
   "EndpointSpec", "EndpointPolicies", "RetryPolicy", "BackoffStrategy", "AuthzConfig",
   "EndpointError",
   "ContractTestSpec", "ContractScenario", "ContractResponse",
   "MigrationSpec", "MigrationOperation", "ColumnDef",
   "ValidationResult", "StructuredError", "StructuredLocation", "Severity",
   "GenerationResult", "VerificationResult",
   "Obligation", "ObligationType", "ObligationStatus", "ObligationSeverity",
   "SemanticDiffResult", "SemanticChange", "DiffCategory", "DiffSeverity",
   "IntentConfig", "ProjectConfig", "GenerationConfig", "RuntimeConfig"]

/-- Model of Rust `str::starts_with`. -/
def strStartsWith (p s : String) : Bool := (stripPre p.toList s.toList).isSome

/-- Model of Rust `str::contains` with a character pattern. -/
def strContainsChar (c : Char) (s : String) : Bool := s.toList.contains c

/-- Whether `pat` occurs as a contiguous subsequence of the input. -/
def hasInfixChars (pat : List Char) : List Char → Bool
  | [] => decide (pat = [])
  | c :: rest => (stripPre pat (c :: rest)).isSome || hasInfixChars pat rest

/-- Model of Rust `str::contains` with a string pattern. -/
def strContainsSub (pat s : String) : Bool := hasInfixChars pat.toList s.toList

/-- Model of Rust `str::to_lowercase` on `String` (ASCII fragment). -/
def strToLower (s : String) : String := String.mk (toLowerChars s.toList)

/-- `is_native_or_engine_type` from `src/validation/typecheck.rs`. -/
def isNativeOrEngineType (typeName : String) : Bool :=
  nativeTypes.contains typeName ||
    (strContainsChar '<' typeName || strContainsSub "::" typeName) ||
    (strStartsWith "Vec<" typeName || strStartsWith "Option<" typeName ||
      strStartsWith "Result<" typeName || strStartsWith "Box<" typeName ||
      strStartsWith "HashMap<" typeName || strStartsWith "array<" typeName ||
      strStartsWith "optional<" typeName || strStartsWith "map<" typeName)

/-! ## Reference resolution (`src/validation/resolve.rs`) -/

/-- The `entry(k).or_default().push(v)` update on a `HashMap<κ, Vec α>`. -/
def pushEntry {κ α : Type} [DecidableEq κ] (k : κ) (v : α) :
    List (κ × List α) → List (κ × List α)
  | [] => [(k, [v])]
  | (k2, vs) :: rest =>
    if k2 = k then (k2, vs ++ [v]) :: rest
    else (k2, vs) :: pushEntry k v rest

/-- `ResolvedGraph` from `src/validation/resolve.rs`. -/
structure ResolvedGraph where
  dependencies : List (Uuid × List Uuid)
  dependents : List (Uuid × List Uuid)
  deriving DecidableEq, Repr

/-- The per-document body of the `resolve_references` loop: resolved
dependency ids and `E005` errors for this document's type, workflow and
service references, in the source's order. -/
def resolveDoc (store : IntentStore) (doc : IntentDocument) :
    List Uuid × List StructuredError :=
  let afterTypes :=
    doc.getTypeReferences.foldl
      (fun (acc : List Uuid × List StructuredError) typeName =>
        if isNativeOrEngineType typeName then acc
        else
          match store.getByKindName .type typeName with
          | some tdoc => (acc.1 ++ [tdoc.id], acc.2)
          | none =>
            (acc.1, acc.2 ++ [⟨"E005", .error,
              "Unknown type reference: " ++ typeName,
              locOf doc "$.spec"⟩]))
      ([], [])
  let afterWorkflow :=
    match doc.getWorkflowReference with
    | some wname =>
      match store.getByKindName .workflow wname with
      | some wdoc => (afterTypes.1 ++ [wdoc.id], afterTypes.2)
      | none =>
        (afterTypes.1, afterTypes.2 ++ [⟨"E005", .error,
          "Unknown workflow reference: " ++ wname,
          locOf doc "$.spec.workflow"⟩])
    | none => afterTypes
  doc.getServiceReferences.foldl
    (fun (acc : List Uuid × List StructuredError) sname =>
      match store.getByKindName .service sname with
      | some sdoc => (acc.1 ++ [sdoc.id], acc.2)
      | none =>
        (acc.1, acc.2 ++ [⟨"E005", .error,
          "Unknown service reference: " ++ sname,
          locOf doc "$.spec"⟩]))
    afterWorkflow

/-- The mutable DFS state of `detect_circular_references`. -/
structure DfsState where
  visited : List Uuid
  recStack : List Uuid
  path : List Uuid
  cycles : List (List Uuid)
  deriving DecidableEq, Repr

/-- `detect_cycle_dfs` from `src/validation/resolve.rs`, with fuel for the
recursion depth (the depth is bounded by the number of nodes, since every
call marks an unvisited node visited; the callers pass enough fuel). -/
def detectCycleDfs (graph : ResolvedGraph) : Nat → Uuid → DfsState → DfsState
  | 0, _, st => st
  | fuel + 1, node, st0 =>
    let st := { st0 with
      visited := st0.visited ++ [node]
      recStack := st0.recStack ++ [node]
      path := st0.path ++ [node] }
    let st :=
      match lookupA node graph.dependencies with
      | some deps =>
        deps.foldl
          (fun (st : DfsState) dep =>
            if dep ∈ st.visited then
              if dep ∈ st.recStack then
                match st.path.findIdx? (fun x => x = dep) with
                | some i => { st with cycles := st.cycles ++ [st.path.drop i] }
                | none => st
              else st
            else detectCycleDfs graph fuel dep st)
          st
      | none => st
    { st with path := st.path.dropLast, recStack := st.recStack.erase node }

/-- `detect_circular_references` from `src/validation/resolve.rs`. -/
def detectCircularReferences (graph : ResolvedGraph) : List (List Uuid) :=
  ((graph.dependencies.map Prod.fst).foldl
      (fun st id =>
        if id ∈ st.visited then st
        else detectCycleDfs graph (graph.dependencies.length + 1) id st)
      ⟨[], [], [], []⟩).cycles

/-- `resolve_references` from `src/validation/resolve.rs`. -/
def resolveReferences (store : IntentStore) : ResolvedGraph × ValidationResult :=
  let folded :=
    store.docs.foldl
      (fun (acc : ResolvedGraph × ValidationResult) doc =>
        let resolved := resolveDoc store doc
        let withDependents :=
          resolved.1.foldl
            (fun (g : ResolvedGraph) depId =>
              { g with dependents := pushEntry depId doc.id g.dependents })
            acc.1
        ({ withDependents with
            dependencies := withDependents.dependencies ++ [(doc.id, resolved.1)] },
          { acc.2 with errors := acc.2.errors ++ resolved.2 }))
      (⟨[], []⟩, ValidationResult.empty)
  let cycles := detectCircularReferences folded.1
  let result :=
    cycles.foldl
      (fun (r : ValidationResult) cycle =>
        let cycleNames := cycle.filterMap (fun i => (store.get i).map (fun d => d.name))
        r.addError "E006"
          ("Circular reference detected: " ++ String.intercalate " -> " cycleNames)
          none)
      folded.2
  (folded.1, result)

/-! ## Type checking (`src/validation/typecheck.rs`) -/

/-- `typecheck_type`. -/
def typecheckType (doc : IntentDocument) (store : IntentStore)
    (r : ValidationResult) : ValidationResult :=
  match doc.asTypeSpec with
  | .error _ => r.addError "E001" "Failed to parse Type spec" (locOf doc "$.spec")
  | .ok spec =>
    spec.fields.foldl
      (fun r fld =>
        fld.2.fieldType.getNamedReferences.foldl
          (fun r typeName =>
            if isNativeOrEngineType typeName then r
            else if (store.getByKindName .type typeName).isSome then r
            else
              r.addError "E005"
                ("Unknown type '" ++ typeName ++ "' in field '" ++ fld.1 ++ "'")
                (locOf doc ("$.spec.fields." ++ fld.1 ++ ".type")))
          r)
      r

/-- `typecheck_workflow`. -/
def typecheckWorkflow (doc : IntentDocument) (store : IntentStore)
    (r : ValidationResult) : ValidationResult :=
  match doc.asWorkflowSpec with
  | .error _ => r.addError "E001" "Failed to parse Workflow spec" (locOf doc "$.spec")
  | .ok spec =>
    let r :=
      if (store.getByKindName .type spec.input).isSome then r
      else r.addError "E005" ("Unknown input type: " ++ spec.input)
        (locOf doc "$.spec.input")
    let r :=
      if (store.getByKindName .type spec.output).isSome then r
      else r.addError "E005" ("Unknown output type: " ++ spec.output)
        (locOf doc "$.spec.output")
    let r :=
      spec.context.foldl
        (fun r ctx =>
          ctx.2.getNamedReferences.foldl
            (fun r typeName =>
              if (store.getByKindName .type typeName).isSome then r
              else
                r.addError "E005"
                  ("Unknown type '" ++ typeName ++ "' in context field '" ++
                    ctx.1 ++ "'")
                  (locOf doc ("$.spec.context." ++ ctx.1)))
            r)
        r
    spec.steps.enum.foldl
      (fun r istep =>
        match istep.2 with
        | .transform t =>
          t.assign.foldl
            (fun r asn =>
              if (lookupA asn.1 spec.context).isSome then r
              else
                r.addWarning "E009"
                  ("Assignment target '" ++ asn.1 ++ "' is not declared in context")
                  (locOf doc ("$.spec.steps[" ++ toString istep.1 ++ "].assign." ++
                    asn.1)))
            r
        | .effect e =>
          let r :=
            if e.effect = .httpCall then
              match e.service with
              | some serviceName =>
                if (store.getByKindName .service serviceName).isSome then r
                else
                  r.addError "E005" ("Unknown service: " ++ serviceName)
                    (locOf doc ("$.spec.steps[" ++ toString istep.1 ++ "].service"))
              | none =>
                r.addError "E002" "HttpCall effect requires 'service' field"
                  (locOf doc ("$.spec.steps[" ++ toString istep.1 ++ "]"))
            else r
          match e.outputBinding with
          | some binding =>
            if (lookupA binding spec.context).isSome then r
            else
              r.addWarning "E009"
                ("Output binding '" ++ binding ++ "' is not declared in context")
                (locOf doc ("$.spec.steps[" ++ toString istep.1 ++ "].output_binding"))
          | none => r)
      r

/-- `typecheck_endpoint`. -/
def typecheckEndpoint (doc : IntentDocument) (store : IntentStore)
    (r : ValidationResult) : ValidationResult :=
  match doc.asEndpointSpec with
  | .error _ => r.addError "E001" "Failed to parse Endpoint spec" (locOf doc "$.spec")
  | .ok spec =>
    let r :=
      if (store.getByKindName .type spec.input).isSome then r
      else r.addError "E005" ("Unknown input type: " ++ spec.input)
        (locOf doc "$.spec.input")
    let r :=
      if (store.getByKindName .type spec.output).isSome then r
      else r.addError "E005" ("Unknown output type: " ++ spec.output)
        (locOf doc "$.spec.output")
    let r :=
      if (store.getByKindName .workflow spec.workflow).isSome then r
      else r.addError "E005" ("Unknown workflow: " ++ spec.workflow)
        (locOf doc "$.spec.workflow")
    match spec.idempotencyKey with
    | some key =>
      match store.getByKindName .type spec.input with
      | some inputType =>
        match inputType.asTypeSpec with
        | .ok inputSpec =>
          if (lookupA key inputSpec.fields).isSome then r
          else
            r.addError "E009"
              ("Idempotency key '" ++ key ++ "' not found in input type '" ++
                spec.input ++ "'")
              (locOf doc "$.spec.idempotency_key")
        | .error _ => r
      | none => r
    | none => r

/-- `typecheck_service`. -/
def typecheckService (doc : IntentDocument) (store : IntentStore)
    (r : ValidationResult) : ValidationResult :=
  match doc.asServiceSpec with
  | .error _ => r.addError "E001" "Failed to parse Service spec" (locOf doc "$.spec")
  | .ok spec =>
    spec.operations.foldl
      (fun r op =>
        let r :=
          if (store.getByKindName .type op.2.input).isSome then r
          else
            r.addError "E005"
              ("Unknown input type '" ++ op.2.input ++ "' in operation '" ++
                op.1 ++ "'")
              (locOf doc ("$.spec.operations." ++ op.1 ++ ".input"))
        if (store.getByKindName .type op.2.output).isSome then r
        else
          r.addError "E005"
            ("Unknown output type '" ++ op.2.output ++ "' in operation '" ++
              op.1 ++ "'")
            (locOf doc ("$.spec.operations." ++ op.1 ++ ".output")))
      r

/-- `typecheck_contract_test`. -/
def typecheckContractTest (doc : IntentDocument) (store : IntentStore)
    (r : ValidationResult) : ValidationResult :=
  match doc.asContractTestSpec with
  | .error _ =>
    r.addError "E001" "Failed to parse ContractTest spec" (locOf doc "$.spec")
  | .ok spec =>
    match store.getByKindName .service spec.service with
    | none =>
      r.addError "E005" ("Unknown service: " ++ spec.service)
        (locOf doc "$.spec.service")
    | some serviceDoc =>
      match serviceDoc.asServiceSpec with
      | .ok serviceSpec =>
        if (lookupA spec.operation serviceSpec.operations).isSome then r
        else
          r.addError "E005"
            ("Unknown operation '" ++ spec.operation ++ "' on service '" ++
              spec.service ++ "'")
            (locOf doc "$.spec.operation")
      | .error _ => r

/-- `typecheck_migration`. -/
def typecheckMigration (doc : IntentDocument) (r : ValidationResult) :
    ValidationResult :=
  match doc.asMigrationSpec with
  | .error _ =>
    r.addError "E001" "Failed to parse Migration spec" (locOf doc "$.spec")
  | .ok spec =>
    let r :=
      if spec.version = 0 then
        r.addError "E002" "Migration version must be > 0" (locOf doc "$.spec.version")
      else r
    let r :=
      if spec.table = "" then
        r.addError "E002" "Migration table name is required" (locOf doc "$.spec.table")
      else r
    if spec.operations.isEmpty then
      r.addError "E002" "Migration must have at least one operation"
        (locOf doc "$.spec.operations")
    else r

/-- `typecheck_function` (`typecheck_expression` is a no-op in the source). -/
def typecheckFunction (doc : IntentDocument) (r : ValidationResult) :
    ValidationResult :=
  match doc.asFunctionSpec with
  | .error _ =>
    r.addError "E001" "Failed to parse Function spec" (locOf doc "$.spec")
  | .ok spec =>
    let r :=
      spec.parameters.enum.foldl
        (fun r ip =>
          let r :=
            if ip.2.name = "" then
              r.addError "E002" ("Parameter " ++ toString ip.1 ++ " has empty name")
                (locOf doc ("$.spec.parameters[" ++ toString ip.1 ++ "].name"))
            else r
          if ip.2.paramType = "" then
            r.addError "E002" ("Parameter '" ++ ip.2.name ++ "' has empty type")
              (locOf doc ("$.spec.parameters[" ++ toString ip.1 ++ "].type"))
          else r)
        r
    if spec.returnType = "" then
      r.addError "E002" "Function must have a return type"
        (locOf doc "$.spec.returns.type")
    else r

/-- `typecheck_pipeline`. -/
def typecheckPipeline (doc : IntentDocument) (store : IntentStore)
    (r : ValidationResult) : ValidationResult :=
  match doc.asPipelineSpec with
  | .error _ =>
    r.addError "E001" "Failed to parse Pipeline spec" (locOf doc "$.spec")
  | .ok spec =>
    let r :=
      if spec.input = "" then
        r.addError "E002" "Pipeline must have an input type" (locOf doc "$.spec.input")
      else r
    let r :=
      if spec.output = "" then
        r.addError "E002" "Pipeline must have an output type" (locOf doc "$.spec.output")
      else r
    let r :=
      if spec.stages.isEmpty then
        r.addError "E002" "Pipeline must have at least one stage"
          (locOf doc "$.spec.stages")
      else r
    spec.stages.enum.foldl
      (fun r istage =>
        let r :=
          if istage.2.name = "" then
            r.addError "E002" ("Stage " ++ toString istage.1 ++ " has empty name")
              (locOf doc ("$.spec.stages[" ++ toString istage.1 ++ "].name"))
          else r
        let r :=
          if istage.2.function = "" then
            r.addError "E002"
              ("Stage '" ++ istage.2.name ++ "' has empty function reference")
              (locOf doc ("$.spec.stages[" ++ toString istage.1 ++ "].function"))
          else r
        if istage.2.function = "" then r
        else if (store.getByKindName .function istage.2.function).isSome ∨
            (store.getByKindName .pipeline istage.2.function).isSome then r
        else
          r.addWarning "E005"
            ("Function or Pipeline '" ++ istage.2.function ++
              "' not found for stage '" ++ istage.2.name ++ "'")
            (locOf doc ("$.spec.stages[" ++ toString istage.1 ++ "].function")))
      r

/-- `typecheck_template`. -/
def typecheckTemplate (doc : IntentDocument) (r : ValidationResult) :
    ValidationResult :=
  match doc.asTemplateSpec with
  | .error _ =>
    r.addError "E001" "Failed to parse Template spec" (locOf doc "$.spec")
  | .ok spec =>
    let r :=
      if spec.input = "" then
        r.addError "E002" "Template must have an input type" (locOf doc "$.spec.input")
      else r
    let r :=
      if spec.outputFile = "" then
        r.addError "E002" "Template must have an output_file"
          (locOf doc "$.spec.output_file")
      else r
    if spec.template.isEmpty then
      r.addError "E002" "Template must have template content"
        (locOf doc "$.spec.template")
    else r

/-- `typecheck_enum`: empty or duplicate variant names are errors.  The
`seen_names` set is modelled by membership in the earlier prefix. -/
def typecheckEnum (doc : IntentDocument) (r : ValidationResult) :
    ValidationResult :=
  match doc.asEnumSpec with
  | .error _ => r.addError "E001" "Failed to parse Enum spec" (locOf doc "$.spec")
  | .ok spec =>
    let r :=
      if spec.variants.isEmpty then
        r.addError "E002" "Enum must have at least one variant"
          (locOf doc "$.spec.variants")
      else r
    (spec.variants.enum.foldl
        (fun (acc : ValidationResult × List String) iv =>
          if iv.2.name = "" then
            (acc.1.addError "E002" ("Variant " ++ toString iv.1 ++ " has empty name")
              (locOf doc ("$.spec.variants[" ++ toString iv.1 ++ "].name")), acc.2)
          else if iv.2.name ∈ acc.2 then
            (acc.1.addError "E010" ("Duplicate variant name: " ++ iv.2.name)
              (locOf doc ("$.spec.variants[" ++ toString iv.1 ++ "].name")), acc.2)
          else (acc.1, acc.2 ++ [iv.2.name]))
        (r, [])).1

/-- `typecheck_module`. -/
def typecheckModule (doc : IntentDocument) (r : ValidationResult) :
    ValidationResult :=
  match doc.asModuleSpec with
  | .error _ => r.addError "E001" "Failed to parse Module spec" (locOf doc "$.spec")
  | .ok spec =>
    let r :=
      if spec.path = "" then
        r.addError "E002" "Module must have a path" (locOf doc "$.spec.path")
      else r
    spec.children.enum.foldl
      (fun r ic =>
        let r :=
          if ic.2.name = "" then
            r.addError "E002" ("Child module " ++ toString ic.1 ++ " has empty name")
              (locOf doc ("$.spec.children[" ++ toString ic.1 ++ "].name"))
          else r
        if ic.2.file = "" then
          r.addError "E002" ("Child module '" ++ ic.2.name ++ "' has empty file")
            (locOf doc ("$.spec.children[" ++ toString ic.1 ++ "].file"))
        else r)
      r

/-- `typecheck_command`. -/
def typecheckCommand (doc : IntentDocument) (store : IntentStore)
    (r : ValidationResult) : ValidationResult :=
  match doc.asCommandSpec with
  | .error _ => r.addError "E001" "Failed to parse Command spec" (locOf doc "$.spec")
  | .ok spec =>
    let r :=
      if spec.command = "" then
        r.addError "E002" "Command must have a command name" (locOf doc "$.spec.command")
      else r
    let r :=
      if spec.handler = "" then
        r.addError "E002" "Command must have a handler" (locOf doc "$.spec.handler")
      else if (store.getByKindName .function spec.handler).isSome ∨
          (store.getByKindName .pipeline spec.handler).isSome then r
      else
        r.addWarning "E005" ("Handler '" ++ spec.handler ++ "' not found")
          (locOf doc "$.spec.handler")
    spec.args.enum.foldl
      (fun r ia =>
        let r :=
          if ia.2.name = "" then
            r.addError "E002" ("Argument " ++ toString ia.1 ++ " has empty name")
              (locOf doc ("$.spec.args[" ++ toString ia.1 ++ "].name"))
          else r
        if ia.2.argType = "" then
          r.addError "E002" ("Argument '" ++ ia.2.name ++ "' has empty type")
            (locOf doc ("$.spec.args[" ++ toString ia.1 ++ "].type"))
        else r)
      r

/-- `typecheck_trait`. -/
def typecheckTrait (doc : IntentDocument) (r : ValidationResult) :
    ValidationResult :=
  match doc.asTraitSpec with
  | .error _ => r.addError "E001" "Failed to parse Trait spec" (locOf doc "$.spec")
  | .ok spec =>
    let r :=
      if spec.methods.isEmpty then
        r.addError "E002" "Trait must have at least one method"
          (locOf doc "$.spec.methods")
      else r
    (spec.methods.enum.foldl
        (fun (acc : ValidationResult × List String) im =>
          let acc :=
            if im.2.name = "" then
              (acc.1.addError "E002" ("Method " ++ toString im.1 ++ " has empty name")
                (locOf doc ("$.spec.methods[" ++ toString im.1 ++ "].name")), acc.2)
            else if im.2.name ∈ acc.2 then
              (acc.1.addError "E010" ("Duplicate method name: " ++ im.2.name)
                (locOf doc ("$.spec.methods[" ++ toString im.1 ++ "].name")), acc.2)
            else (acc.1, acc.2 ++ [im.2.name])
          if im.2.returnType = "" then
            (acc.1.addError "E002"
              ("Method '" ++ im.2.name ++ "' has empty return type")
              (locOf doc ("$.spec.methods[" ++ toString im.1 ++ "].returns.type")),
              acc.2)
          else acc)
        (r, [])).1

/-- `typecheck` from `src/validation/typecheck.rs`: dispatch on kind over
every document. -/
def typecheck (store : IntentStore) : ValidationResult :=
  store.docs.foldl
    (fun r doc =>
      match doc.kind with
      | .type => typecheckType doc store r
      | .workflow => typecheckWorkflow doc store r
      | .endpoint => typecheckEndpoint doc store r
      | .service => typecheckService doc store r
      | .contractTest => typecheckContractTest doc store r
      | .migration => typecheckMigration doc r
      | .function => typecheckFunction doc r
      | .pipeline => typecheckPipeline doc store r
      | .template => typecheckTemplate doc r
      | .enum => typecheckEnum doc r
      | .module => typecheckModule doc r
      | .command => typecheckCommand doc store r
      | .trait => typecheckTrait doc r)
    ValidationResult.empty

/-! ## Effect analysis (`src/validation/effects.rs`) -/

/-- `EffectInfo` from `src/validation/effects.rs`. -/
structure EffectInfo where
  kind : EffectKind
  service : Option String
  operation : Option String
  table : Option String
  topic : Option String
  workflowName : String
  stepIndex : Nat
  deriving DecidableEq, Repr

/-- `EffectAnalysis` from `src/validation/effects.rs`; the two `HashSet`s
are modelled as duplicate-free lists in insertion order. -/
structure EffectAnalysis where
  workflowEffects : List (Uuid × List EffectInfo)
  tablesWritten : List String
  servicesCalled : List (String × String)
  deriving DecidableEq, Repr

/-- `HashSet::insert`: add the element unless already present. -/
def hsInsert {α : Type} [DecidableEq α] (x : α) (s : List α) : List α :=
  if x ∈ s then s else s ++ [x]

/-- `analyze_effects` from `src/validation/effects.rs` (its
`ValidationResult` is always empty; the source never adds to it). -/
def analyzeEffects (store : IntentStore) : EffectAnalysis × ValidationResult :=
  (store.docs.foldl
      (fun (a : EffectAnalysis) doc =>
        if doc.kind ≠ .workflow then a
        else
          match doc.asWorkflowSpec with
          | .error _ => a
          | .ok spec =>
            let processed :=
              spec.steps.enum.foldl
                (fun (acc : EffectAnalysis × List EffectInfo) istep =>
                  match istep.2 with
                  | .effect e =>
                    let info : EffectInfo :=
                      ⟨e.effect, e.service, e.operation, e.table, e.topic,
                        doc.name, istep.1⟩
                    let a := acc.1
                    let a :=
                      if e.effect = .dbWrite ∨ e.effect = .dbDelete then
                        match e.table with
                        | some table =>
                          { a with tablesWritten := hsInsert table a.tablesWritten }
                        | none => a
                      else a
                    let a :=
                      if e.effect = .httpCall then
                        match e.service, e.operation with
                        | some service, some operation =>
                          { a with servicesCalled :=
                              hsInsert (service, operation) a.servicesCalled }
                        | _, _ => a
                      else a
                    (a, acc.2 ++ [info])
                  | _ => acc)
                (a, [])
            { processed.1 with workflowEffects :=
                processed.1.workflowEffects ++ [(doc.id, processed.2)] })
      ⟨[], [], []⟩,
    ValidationResult.empty)

/-! ## Policy analysis (`src/validation/policies.rs`) -/

/-- `analyze_policies` from `src/validation/policies.rs`. -/
def analyzePolicies (store : IntentStore) : ValidationResult :=
  store.docs.foldl
    (fun r doc =>
      if doc.kind ≠ .endpoint then r
      else
        match doc.asEndpointSpec with
        | .error _ => r
        | .ok spec =>
          let hasHttpEffects :=
            match store.getByKindName .workflow spec.workflow with
            | some workflowDoc =>
              match workflowDoc.asWorkflowSpec with
              | .ok workflowSpec =>
                workflowSpec.steps.any (fun step =>
                  match step with
                  | .effect e => e.effect = .httpCall
                  | _ => false)
              | .error _ => false
            | none => false
          let r :=
            if hasHttpEffects = true ∧ spec.policies.timeoutMs = none then
              r.addWarning "E008"
                ("Endpoint '" ++ doc.name ++ "' has HTTP effects but no timeout_ms policy")
                (locOf doc "$.spec.policies")
            else r
          let r :=
            match spec.policies.timeoutMs with
            | some timeout =>
              let r :=
                if timeout = 0 then
                  r.addError "E008" "timeout_ms must be > 0"
                    (locOf doc "$.spec.policies.timeout_ms")
                else r
              if timeout > 60000 then
                r.addWarning "E008"
                  ("timeout_ms of " ++ toString timeout ++ " is very high (> 60s)")
                  (locOf doc "$.spec.policies.timeout_ms")
              else r
            | none => r
          let r :=
            match spec.policies.retries with
            | some retries =>
              let r :=
                if retries.max = 0 then
                  r.addWarning "E008" "retries.max of 0 means no retries"
                    (locOf doc "$.spec.policies.retries.max")
                else r
              if retries.max > 10 then
                r.addWarning "E008"
                  ("retries.max of " ++ toString retries.max ++ " is very high")
                  (locOf doc "$.spec.policies.retries.max")
              else r
            | none => r
          let hasDbWrite :=
            match store.getByKindName .workflow spec.workflow with
            | some workflowDoc =>
              match workflowDoc.asWorkflowSpec with
              | .ok workflowSpec =>
                workflowSpec.steps.any (fun step =>
                  match step with
                  | .effect e => e.effect = .dbWrite ∨ e.effect = .dbDelete
                  | _ => false)
              | .error _ => false
            | none => false
          if hasDbWrite = true ∧ spec.idempotencyKey = none then
            r.addWarning "E008"
              ("Endpoint '" ++ doc.name ++ "' has database writes but no idempotency_key")
              (locOf doc "$.spec")
          else r)
    ValidationResult.empty

/-! ## Security checks (`src/validation/security.rs`) -/

/-- The `PII_PATTERNS` list from `src/validation/security.rs`. -/
def piiPatterns : List String :=
  ["email", "phone", "ssn", "social_security", "address", "name", "first_name",
   "last_name", "date_of_birth", "dob", "credit_card", "card_number", "cvv",
   "password", "secret"]

/-- `check_endpoint_security`: W001 for missing authz, W002 for a broad
scope. -/
def checkEndpointSecurity (doc : IntentDocument) (r : ValidationResult) :
    ValidationResult :=
  match doc.asEndpointSpec with
  | .error _ => r
  | .ok spec =>
    let r :=
      match spec.authz with
      | none =>
        r.addWarning "W001"
          ("Endpoint '" ++ doc.name ++ "' has no authorization configured")
          (locOf doc "$.spec")
      | some _ => r
    match spec.authz with
    | some authz =>
      if authz.scope = "*" ∨ authz.scope = "admin" then
        r.addWarning "W002"
          ("Endpoint '" ++ doc.name ++ "' has broad authorization scope: " ++
            authz.scope)
          (locOf doc "$.spec.authz.scope")
      else r
    | none => r

/-- `check_type_pii`: W003 for field names whose lowercase form contains a
PII pattern (first matching pattern only, as the source `break`s). -/
def checkTypePii (doc : IntentDocument) (r : ValidationResult) : ValidationResult :=
  match doc.asTypeSpec with
  | .error _ => r
  | .ok spec =>
    spec.fields.foldl
      (fun r fld =>
        let lowerName := strToLower fld.1
        match piiPatterns.find? (fun pat => strContainsSub pat lowerName) with
        | some pat =>
          r.addWarning "W003"
            ("Field '" ++ fld.1 ++ "' in type '" ++ doc.name ++
              "' may contain PII (matches pattern '" ++ pat ++ "')")
            (locOf doc ("$.spec.fields." ++ fld.1))
        | none => r)
      r

/-- `check_security` from `src/validation/security.rs`. -/
def checkSecurity (store : IntentStore) : ValidationResult :=
  store.docs.foldl
    (fun r doc =>
      let r := if doc.kind = .endpoint then checkEndpointSecurity doc r else r
      if doc.kind = .type then checkTypePii doc r else r)
    ValidationResult.empty

/-- `check_authz_widening` from `src/validation/security.rs`. -/
def checkAuthzWidening (oldDoc newDoc : IntentDocument) : Option String :=
  match oldDoc.asEndpointSpec, newDoc.asEndpointSpec with
  | .ok oldSpec, .ok newSpec =>
    let oldScope := oldSpec.authz.map (fun a => a.scope)
    let newScope := newSpec.authz.map (fun a => a.scope)
    match oldScope, newScope with
    | some o, some n =>
      if o ≠ n then
        if n = "*" ∨ n = "admin" ∨ (strContainsSub "write" n ∧ ¬ strContainsSub "write" o) then
          some ("AuthZ scope widened from '" ++ o ++ "' to '" ++ n ++ "'")
        else none
      else none
    | some o, none => some ("AuthZ removed (was scope '" ++ o ++ "')")
    | _, _ => none
  | _, _ => none

/-! ## The validation pipeline (`src/validation/mod.rs`) -/

/-- `validate_all` from `src/validation/mod.rs`: resolution first; if it
produced any error, return immediately; otherwise run type checking,
effect analysis (whose result is discarded), policy analysis, and
security checks, merging their results. -/
def validateAll (store : IntentStore) : ValidationResult :=
  let result := ValidationResult.empty.mergeWith (resolveReferences store).2
  if ¬ result.errors.isEmpty then result
  else
    let result := result.mergeWith (typecheck store)
    let result := result.mergeWith (analyzePolicies store)
    result.mergeWith (checkSecurity store)

/-! ## Exit codes and `cmd_validate` (`src/cli/commands.rs`) -/

/-- Exit code `SUCCESS`. -/
def exitSuccess : Nat := 0

/-- Exit code `GENERAL_ERROR`. -/
def exitGeneralError : Nat := 1

/-- Exit code `VALIDATION_ERROR`. -/
def exitValidationError : Nat := 2

/-- Exit code `GENERATION_MISMATCH`. -/
def exitGenerationMismatch : Nat := 3

/-- Exit code `PATCH_CONFLICT`. -/
def exitPatchConflict : Nat := 4

/-- Exit code `OPEN_OBLIGATIONS`. -/
def exitOpenObligations : Nat := 5

/-- `cmd_validate` from `src/cli/commands.rs`, with the store already
loaded and output printing elided: exit 0 when there are no errors,
otherwise exit 2. -/
def cmdValidate (store : IntentStore) : Nat :=
  if (validateAll store).errors.isEmpty then exitSuccess else exitValidationError

/-! ## Claim C5: behaviour of `validate_all` when resolution fails -/

/-- An endpoint whose input, output and workflow are all unresolved and
which carries no `authz` (so security *would* warn W001 if it ran). -/
def docEndpointDangling : IntentDocument :=
  ⟨"1.0", 1, .endpoint, "CreateRefund",
    .endpointS ⟨.post, "/refund", "In", "Out", "W", none, ⟨none, none⟩, none, []⟩,
    none⟩

/-- A one-endpoint store on which reference resolution fails. -/
def storeC5 : IntentStore := loadSeq [docEndpointDangling]

/-- C5 (counterexample): on `storeC5` resolution produces errors, and the
security phase would produce a W001 warning, yet `validate_all` returns
no warnings at all — policy analysis and security checks are *not* run
when resolution fails. -/
theorem C5_counterexample :
    (resolveReferences storeC5).2.errors ≠ [] ∧
      (checkSecurity storeC5).warnings ≠ [] ∧
      (validateAll storeC5).warnings = [] := by
  decide

/-- C5 (amended): when reference resolution produces at least one error,
`validate_all` returns the resolution result unchanged — type checking,
policy analysis and security checks are all skipped, and no warnings
accumulate. -/
theorem C5_resolution_short_circuits (S : IntentStore)
    (h : (resolveReferences S).2.errors ≠ []) :
    validateAll S = (resolveReferences S).2 := by
  unfold validateAll
  have hm : ValidationResult.empty.mergeWith (resolveReferences S).2 =
      (resolveReferences S).2 := by
    simp [ValidationResult.mergeWith, ValidationResult.empty]
  rw [hm, if_pos]
  intro hempty
  exact h (List.isEmpty_iff.mp hempty)

/-- Witness for `C5_resolution_short_circuits` at `storeC5`. -/
theorem C5_resolution_short_circuits_witness :
    (resolveReferences storeC5).2.errors ≠ [] ∧
      validateAll storeC5 = (resolveReferences storeC5).2 :=
  ⟨by decide, C5_resolution_short_circuits storeC5 (by decide)⟩

/-! ## Claim C6: unresolved HttpCall service in a workflow step -/

/-- A workflow whose first (and only) step is an `HttpCall` effect naming
the service `Payments` with operation `charge`. -/
def docWorkflowPayments : IntentDocument :=
  ⟨"1.0", 12, .workflow, "RefundWorkflow",
    .workflowS
      ⟨"A", "B", [],
        [.effect ⟨.httpCall, some "Payments", some "charge", none, none, none, .abort⟩]⟩,
    some "wf.intent.json"⟩

/-- A corpus with the claim's scenario: two empty types, and a workflow
whose `HttpCall` step names a service that does not exist. -/
def storeC6 : IntentStore :=
  loadSeq
    [⟨"1.0", 10, .type, "A", .typeS ⟨[]⟩, none⟩,
     ⟨"1.0", 11, .type, "B", .typeS ⟨[]⟩, none⟩,
     docWorkflowPayments]

/-- C6 (counterexample): on the claim's scenario `validate` exits 2 and
reports E005, but the error's location path is `$.spec` (emitted by
reference resolution), not `$.spec.steps[0].service`: the step-level path
belongs to `typecheck_workflow`, which is skipped because resolution
failed. -/
theorem C6_counterexample :
    cmdValidate storeC6 = 2 ∧
      (validateAll storeC6).errors =
        [⟨"E005", .error, "Unknown service reference: Payments",
          some ⟨"wf.intent.json", "$.spec"⟩⟩] ∧
      ¬ ∃ e ∈ (validateAll storeC6).errors,
        e.location = some ⟨"wf.intent.json", "$.spec.steps[0].service"⟩ := by
  decide

/-- C6 (amended): for the claim's scenario, `validate` exits with code 2
and reports exactly one E005 error for the unknown service `Payments`,
located at `$.spec` of the workflow's file. -/
theorem C6_unknown_service_exit2 :
    cmdValidate storeC6 = 2 ∧
      (validateAll storeC6).errors =
        [⟨"E005", .error, "Unknown service reference: Payments",
          some ⟨"wf.intent.json", "$.spec"⟩⟩] := by
  decide

/-! ## Canonical JSON (`src/parser/canonical.rs`)

`serde_json::Value` is modelled by `Json`; a `Number` is carried as its
serialized lexical form (the string `Number::to_string` produces), which
is what `canonicalize_number` emits.  Object maps are association lists;
serde's map invariant (no duplicate keys) is the `wellFormedJ` predicate.
The recursive functions take explicit fuel (`sizeOf` of the value), which
the recursion never exhausts. -/

/-- The JSON value tree (`serde_json::Value`). -/
inductive Json where
  | null
  | bool (b : Bool)
  | num (s : String)
  | str (s : String)
  | arr (elems : List Json)
  | obj (entries : List (String × Json))
  deriving Repr

mutual
/-- A structural size for `Json`, used as fuel for the recursive
functions below (any bound on the nesting depth works). -/
def jsonSize : Json → Nat
  | .null => 1
  | .bool _ => 1
  | .num _ => 1
  | .str _ => 1
  | .arr xs => 1 + jsonSizeL xs
  | .obj kvs => 1 + jsonSizeO kvs

/-- Structural size of a JSON array's elements. -/
def jsonSizeL : List Json → Nat
  | [] => 1
  | x :: xs => 1 + jsonSize x + jsonSizeL xs

/-- Structural size of a JSON object's entries. -/
def jsonSizeO : List (String × Json) → Nat
  | [] => 1
  | kv :: rest => 1 + jsonSize kv.2 + jsonSizeO rest
end

/-- A hexadecimal digit (lowercase, as Rust's `{:04x}` / `hex::encode`). -/
def toHexDigit (n : Nat) : Char :=
  if n < 10 then Char.ofNat (48 + n) else Char.ofNat (87 + n)

/-- Four lowercase hex digits, as Rust's `{:04x}`. -/
def toHex4 (n : Nat) : List Char :=
  [toHexDigit (n / 4096 % 16), toHexDigit (n / 256 % 16),
   toHexDigit (n / 16 % 16), toHexDigit (n % 16)]

/-- Model of Rust `char::is_control` (Unicode `Cc`: U+0000–U+001F and
U+007F–U+009F). -/
def isControlChar (c : Char) : Bool :=
  c.toNat < 32 ∨ (127 ≤ c.toNat ∧ c.toNat ≤ 159)

/-- The per-character escaping of `canonicalize_string`. -/
def escapeChar (c : Char) : List Char :=
  if c = '"' then ['\\', '"']
  else if c = '\\' then ['\\', '\\']
  else if c = '\n' then ['\\', 'n']
  else if c = '\r' then ['\\', 'r']
  else if c = '\t' then ['\\', 't']
  else if isControlChar c then '\\' :: 'u' :: toHex4 c.toNat
  else [c]

/-- `canonicalize_string` from `src/parser/canonical.rs`. -/
def canonicalizeString (s : String) : String :=
  "\"" ++ String.mk (s.toList.flatMap escapeChar) ++ "\""

/-- `obj.get(k).unwrap()` on the association list (`.null` when the key
is absent, which cannot happen for keys drawn from the map itself). -/
def jsonGet (k : String) (kvs : List (String × Json)) : Json :=
  match lookupA k kvs with
  | some v => v
  | none => .null

/-- Lexicographic (codepoint) order on character lists: the model of
Rust's `Ord` for `String` (UTF-8 byte order equals codepoint order). -/
def charListLe : List Char → List Char → Bool
  | [], _ => true
  | _ :: _, [] => false
  | a :: as, b :: bs =>
    if a = b then charListLe as bs else decide (a.toNat < b.toNat)

/-- Lexicographic order on strings. -/
def strLe (a b : String) : Bool := charListLe a.toList b.toList

/-- Insertion of a string into a sorted list (ascending). -/
def insertSorted (x : String) : List String → List String
  | [] => [x]
  | y :: ys => if strLe x y then x :: y :: ys else y :: insertSorted x ys

/-- Lexicographic ascending sort of strings (the model of `Vec::sort`). -/
def sortStrings (l : List String) : List String := l.foldr insertSorted []

/-- The sorted key list of an object (`keys.sort()`). -/
def sortedKeys (kvs : List (String × Json)) : List String :=
  sortStrings (kvs.map Prod.fst)

/-- `canonicalize` from `src/parser/canonical.rs`, with fuel: object
members sorted by key, no whitespace, arrays in order. -/
def canonF : Nat → Json → String
  | 0, _ => ""
  | n + 1, j =>
    match j with
    | .null => "null"
    | .bool b => if b then "true" else "false"
    | .num s => s
    | .str s => canonicalizeString s
    | .arr xs => "[" ++ String.intercalate "," (xs.map (canonF n)) ++ "]"
    | .obj kvs =>
      "\x7b" ++ String.intercalate ","
        ((sortedKeys kvs).map (fun k =>
          canonicalizeString k ++ ":" ++ canonF n (jsonGet k kvs))) ++ "\x7d"

/-- `canonicalize`. -/
def Json.canonicalize (v : Json) : String := canonF (jsonSize v) v

/-- Duplicate-freedom of a key list, as a boolean. -/
def keysNodupB : List String → Bool
  | [] => true
  | k :: ks => (¬ ks.contains k) && keysNodupB ks

/-- serde's map invariant, recursively: no object has duplicate keys. -/
def wfJsonF : Nat → Json → Bool
  | 0, _ => false
  | n + 1, j =>
    match j with
    | .arr xs => xs.all (wfJsonF n)
    | .obj kvs => keysNodupB (kvs.map Prod.fst) && kvs.all (fun kv => wfJsonF n kv.2)
    | _ => true

/-- serde's map invariant at adequate fuel. -/
def Json.wellFormedJ (j : Json) : Bool := wfJsonF (jsonSize j) j

/-- Semantic equality of JSON values, the claim's hypothesis: equal
scalars, arrays equal element-wise in order, objects with the same
(sorted) key list and semantically equal values at every key. -/
def semEqF : Nat → Json → Json → Bool
  | 0, _, _ => false
  | n + 1, a, b =>
    match a, b with
    | .null, .null => true
    | .bool x, .bool y => x = y
    | .num x, .num y => x = y
    | .str x, .str y => x = y
    | .arr xs, .arr ys =>
      xs.length = ys.length &&
        (xs.zip ys).all (fun p => semEqF n p.1 p.2)
    | .obj akvs, .obj bkvs =>
      sortedKeys akvs = sortedKeys bkvs &&
        (sortedKeys akvs).all (fun k => semEqF n (jsonGet k akvs) (jsonGet k bkvs))
    | _, _ => false

/-- Semantic equality at adequate fuel. -/
def Json.semEq (a b : Json) : Bool := semEqF (jsonSize a + jsonSize b) a b

/-! ### SHA-256 (the `sha2` crate's `Sha256`, used by `hash_canonical`
and the manifest's `compute_hash`), over bytes as naturals -/

/-- Truncation to a 32-bit word. -/
def w32 (x : Nat) : Nat := x % 4294967296

/-- 32-bit right rotation. -/
def rotr (n x : Nat) : Nat := w32 ((x >>> n) ||| (x <<< (32 - n)))

/-- 32-bit bitwise complement. -/
def notW (x : Nat) : Nat := x ^^^ 4294967295

/-- SHA-256 `Ch`. -/
def chW (x y z : Nat) : Nat := (x &&& y) ^^^ (notW x &&& z)

/-- SHA-256 `Maj`. -/
def majW (x y z : Nat) : Nat := (x &&& y) ^^^ (x &&& z) ^^^ (y &&& z)

/-- SHA-256 `Σ₀`. -/
def bigSigma0 (x : Nat) : Nat := rotr 2 x ^^^ rotr 13 x ^^^ rotr 22 x

/-- SHA-256 `Σ₁`. -/
def bigSigma1 (x : Nat) : Nat := rotr 6 x ^^^ rotr 11 x ^^^ rotr 25 x

/-- SHA-256 `σ₀`. -/
def smallSigma0 (x : Nat) : Nat := rotr 7 x ^^^ rotr 18 x ^^^ (x >>> 3)

/-- SHA-256 `σ₁`. -/
def smallSigma1 (x : Nat) : Nat := rotr 17 x ^^^ rotr 19 x ^^^ (x >>> 10)

/-- The SHA-256 round constants. -/
def sha256K : List Nat :=
  [1116352408, 1899447441, 3049323471, 3921009573, 961987163,
   1508970993, 2453635748, 2870763221, 3624381080, 310598401,
   607225278, 1426881987, 1925078388, 2162078206, 2614888103,
   3248222580, 3835390401, 4022224774, 264347078, 604807628,
   770255983, 1249150122, 1555081692, 1996064986, 2554220882,
   2821834349, 2952996808, 3210313671, 3336571891, 3584528711,
   113926993, 338241895, 666307205, 773529912, 1294757372,
   1396182291, 1695183700, 1986661051, 2177026350, 2456956037,
   2730485921, 2820302411, 3259730800, 3345764771, 3516065817,
   3600352804, 4094571909, 275423344, 430227734, 506948616,
   659060556, 883997877, 958139571, 1322822218, 1537002063,
   1747873779, 1955562222, 2024104815, 2227730452, 2361852424,
   2428436474, 2756734187, 3204031479, 3329325298]

/-- The eight 32-bit words of the SHA-256 working state. -/
structure Sha256State where
  a : Nat
  b : Nat
  c : Nat
  d : Nat
  e : Nat
  f : Nat
  g : Nat
  h : Nat
  deriving Repr

/-- The SHA-256 initial hash value. -/
def sha256Init : Sha256State :=
  ⟨1779033703, 3144134277, 1013904242, 2773480762,
   1359893119, 2600822924, 528734635, 1541459225⟩

/-- The eight big-endian bytes of a 64-bit length. -/
def bytesBE8 (n : Nat) : List Nat :=
  [n / 72057594037927936 % 256, n / 281474976710656 % 256,
   n / 1099511627776 % 256, n / 4294967296 % 256,
   n / 16777216 % 256, n / 65536 % 256, n / 256 % 256, n % 256]

/-- The four big-endian bytes of a 32-bit word. -/
def bytesBE4 (n : Nat) : List Nat :=
  [n / 16777216 % 256, n / 65536 % 256, n / 256 % 256, n % 256]

/-- SHA-256 padding: `0x80`, zeros to 56 mod 64, then the bit length. -/
def sha256pad (msg : List Nat) : List Nat :=
  msg ++ [128] ++ List.replicate ((55 - msg.length % 64 + 64) % 64) 0 ++
    bytesBE8 (msg.length * 8)

/-- Split into 64-byte chunks (fuel is the list length, always enough). -/
def chunksGo : Nat → List Nat → List (List Nat)
  | 0, _ => []
  | _ + 1, [] => []
  | n + 1, l => l.take 64 :: chunksGo n (l.drop 64)

/-- The sixteen big-endian 32-bit words of a 64-byte chunk. -/
def toWords : List Nat → List Nat
  | b0 :: b1 :: b2 :: b3 :: rest =>
    (b0 * 16777216 + b1 * 65536 + b2 * 256 + b3) :: toWords rest
  | _ => []

/-- One message-schedule extension step. -/
def schedStep (w : List Nat) : List Nat :=
  let i := w.length
  w ++ [w32 (smallSigma1 (w.getD (i - 2) 0) + w.getD (i - 7) 0 +
    smallSigma0 (w.getD (i - 15) 0) + w.getD (i - 16) 0)]

/-- The 64-word message schedule from the 16 chunk words. -/
def schedule (w16 : List Nat) : List Nat :=
  (List.range 48).foldl (fun w _ => schedStep w) w16

/-- One SHA-256 compression round. -/
def compressStep (s : Sha256State) (kw : Nat × Nat) : Sha256State :=
  let t1 := w32 (s.h + bigSigma1 s.e + chW s.e s.f s.g + kw.1 + kw.2)
  let t2 := w32 (bigSigma0 s.a + majW s.a s.b s.c)
  ⟨w32 (t1 + t2), s.a, s.b, s.c, w32 (s.d + t1), s.e, s.f, s.g⟩

/-- Process one 64-byte chunk. -/
def processChunk (st : Sha256State) (chunk : List Nat) : Sha256State :=
  let s := (sha256K.zip (schedule (toWords chunk))).foldl compressStep st
  ⟨w32 (st.a + s.a), w32 (st.b + s.b), w32 (st.c + s.c), w32 (st.d + s.d),
   w32 (st.e + s.e), w32 (st.f + s.f), w32 (st.g + s.g), w32 (st.h + s.h)⟩

/-- SHA-256 of a byte list, as 32 bytes. -/
def sha256 (msg : List Nat) : List Nat :=
  let padded := sha256pad msg
  let final := (chunksGo padded.length padded).foldl processChunk sha256Init
  bytesBE4 final.a ++ bytesBE4 final.b ++ bytesBE4 final.c ++ bytesBE4 final.d ++
    bytesBE4 final.e ++ bytesBE4 final.f ++ bytesBE4 final.g ++ bytesBE4 final.h

/-- The two lowercase hex digits of a byte (`hex::encode`). -/
def hexOfByte (b : Nat) : List Char := [toHexDigit (b / 16 % 16), toHexDigit (b % 16)]

/-- `hex::encode`. -/
def hexEncode (bs : List Nat) : String := String.mk (bs.flatMap hexOfByte)

/-- UTF-8 encoding of one character (`str::as_bytes`). -/
def utf8EncodeChar (c : Char) : List Nat :=
  let n := c.toNat
  if n < 128 then [n]
  else if n < 2048 then [192 + n / 64, 128 + n % 64]
  else if n < 65536 then [224 + n / 4096, 128 + n / 64 % 64, 128 + n % 64]
  else [240 + n / 262144, 128 + n / 4096 % 64, 128 + n / 64 % 64, 128 + n % 64]

/-- The UTF-8 bytes of a string. -/
def utf8Bytes (s : String) : List Nat := s.toList.flatMap utf8EncodeChar

/-- `hash_canonical` from `src/parser/canonical.rs`: hex-encoded SHA-256
of the compact canonical bytes. -/
def hashCanonical (v : Json) : String := hexEncode (sha256 (utf8Bytes v.canonicalize))

/-- `compute_hash` from `src/codegen/manifest.rs`: hex-encoded SHA-256 of
file content. -/
def computeHash (content : String) : String := hexEncode (sha256 (utf8Bytes content))

/-! ## Claim C1: canonicalization respects semantic equality -/

theorem jsonSize_pos (j : Json) : 1 ≤ jsonSize j := by
  cases j <;> simp [jsonSize]

theorem jsonSizeL_bound {x : Json} {xs : List Json} (h : x ∈ xs) :
    jsonSize x < jsonSizeL xs := by
  induction xs with
  | nil => cases h
  | cons y ys ih =>
    rcases List.mem_cons.mp h with rfl | hmem
    · simp [jsonSizeL]
      omega
    · have := ih hmem
      simp [jsonSizeL]
      omega

theorem jsonGet_size_le (k : String) (kvs : List (String × Json)) :
    jsonSize (jsonGet k kvs) ≤ jsonSizeO kvs := by
  induction kvs with
  | nil => simp [jsonGet, lookupA, jsonSize, jsonSizeO]
  | cons kv rest ih =>
    obtain ⟨k2, v⟩ := kv
    by_cases h : k2 = k
    · simp [jsonGet, lookupA, h, jsonSizeO]
      omega
    · have : jsonGet k ((k2, v) :: rest) = jsonGet k rest := by
        simp [jsonGet, lookupA, h]
      rw [this]
      have := ih
      simp [jsonSizeO]
      omega

theorem canonF_fuel :
    ∀ n m j, jsonSize j ≤ n → jsonSize j ≤ m → canonF n j = canonF m j := by
  intro n
  induction n with
  | zero =>
    intro m j hn _
    have := jsonSize_pos j
    omega
  | succ n ih =>
    intro m j hn hm
    cases m with
    | zero =>
      have := jsonSize_pos j
      omega
    | succ m =>
      cases j with
      | null => rfl
      | bool b => rfl
      | num s => rfl
      | str s => rfl
      | arr xs =>
        have hsz : jsonSize (Json.arr xs) = 1 + jsonSizeL xs := by simp [jsonSize]
        have hmap : xs.map (canonF n) = xs.map (canonF m) := by
          apply List.map_congr_left
          intro x hx
          have hb := jsonSizeL_bound hx
          exact ih m x (by omega) (by omega)
        simp only [canonF, hmap]
      | obj kvs =>
        have hsz : jsonSize (Json.obj kvs) = 1 + jsonSizeO kvs := by simp [jsonSize]
        have hmap :
            (sortedKeys kvs).map
                (fun k => canonicalizeString k ++ ":" ++ canonF n (jsonGet k kvs)) =
              (sortedKeys kvs).map
                (fun k => canonicalizeString k ++ ":" ++ canonF m (jsonGet k kvs)) := by
          apply List.map_congr_left
          intro k _
          have hb := jsonGet_size_le k kvs
          rw [ih m (jsonGet k kvs) (by omega) (by omega)]
        simp only [canonF, hmap]

theorem map_canonF_congr (n : Nat)
    (ih : ∀ a b, jsonSize a ≤ n → jsonSize b ≤ n → semEqF n a b = true →
      canonF n a = canonF n b) :
    ∀ (xs ys : List Json), xs.length = ys.length →
      (∀ p ∈ xs.zip ys, semEqF n p.1 p.2 = true) →
      jsonSizeL xs ≤ n → jsonSizeL ys ≤ n →
      xs.map (canonF n) = ys.map (canonF n) := by
  intro xs
  induction xs with
  | nil =>
    intro ys hlen _ _ _
    cases ys with
    | nil => rfl
    | cons y ys => simp at hlen
  | cons x xs ihx =>
    intro ys hlen hall ha hb
    cases ys with
    | nil => simp at hlen
    | cons y ys =>
      have hx : canonF n x = canonF n y := by
        apply ih x y ?_ ?_ (hall (x, y) (by simp [List.zip_cons_cons]))
        · simp [jsonSizeL] at ha
          omega
        · simp [jsonSizeL] at hb
          omega
      have ht : xs.map (canonF n) = ys.map (canonF n) := by
        refine ihx ys (by simpa using hlen) ?_ ?_ ?_
        · intro p hp
          exact hall p (by simp [List.zip_cons_cons, hp])
        · simp [jsonSizeL] at ha
          omega
        · simp [jsonSizeL] at hb
          omega
      simp [hx, ht]

theorem canonF_semEq :
    ∀ n a b, jsonSize a ≤ n → jsonSize b ≤ n → semEqF n a b = true →
      canonF n a = canonF n b := by
  intro n
  induction n with
  | zero =>
    intro a b ha _ _
    have := jsonSize_pos a
    omega
  | succ n ih =>
    intro a b ha hb hse
    cases a with
    | null => cases b <;> simp_all [semEqF, canonF]
    | bool x => cases b <;> simp_all [semEqF, canonF]
    | num x => cases b <;> simp_all [semEqF, canonF]
    | str x => cases b <;> simp_all [semEqF, canonF]
    | arr xs =>
      cases b with
      | arr ys =>
        simp only [semEqF, Bool.and_eq_true, decide_eq_true_eq, List.all_eq_true] at hse
        obtain ⟨hlen, hall⟩ := hse
        have ha2 : jsonSizeL xs ≤ n := by
          simp [jsonSize] at ha
          omega
        have hb2 : jsonSizeL ys ≤ n := by
          simp [jsonSize] at hb
          omega
        have hmap := map_canonF_congr n ih xs ys hlen hall ha2 hb2
        simp only [canonF, hmap]
      | null => simp [semEqF] at hse
      | bool y => simp [semEqF] at hse
      | num y => simp [semEqF] at hse
      | str y => simp [semEqF] at hse
      | obj ykvs => simp [semEqF] at hse
    | obj akvs =>
      cases b with
      | obj bkvs =>
        simp only [semEqF, Bool.and_eq_true, decide_eq_true_eq, List.all_eq_true] at hse
        obtain ⟨hkeys, hall⟩ := hse
        have hmap :
            (sortedKeys akvs).map
                (fun k => canonicalizeString k ++ ":" ++ canonF n (jsonGet k akvs)) =
              (sortedKeys bkvs).map
                (fun k => canonicalizeString k ++ ":" ++ canonF n (jsonGet k bkvs)) := by
          rw [← hkeys]
          apply List.map_congr_left
          intro k hk
          have hv : canonF n (jsonGet k akvs) = canonF n (jsonGet k bkvs) := by
            apply ih _ _ ?_ ?_ (hall k hk)
            · have := jsonGet_size_le k akvs
              simp [jsonSize] at ha
              omega
            · have := jsonGet_size_le k bkvs
              simp [jsonSize] at hb
              omega
          rw [hv]
        simp only [canonF, hmap]
      | null => simp [semEqF] at hse
      | bool y => simp [semEqF] at hse
      | num y => simp [semEqF] at hse
      | str y => simp [semEqF] at hse
      | arr ys => simp [semEqF] at hse

theorem hexEncode_length (bs : List Nat) : (hexEncode bs).length = 2 * bs.length := by
  unfold hexEncode
  induction bs with
  | nil => rfl
  | cons b bs ih =>
    simp only [List.flatMap_cons]
    show (String.mk (hexOfByte b ++ bs.flatMap hexOfByte)).length = 2 * (b :: bs).length
    simp only [String.length, List.length_append]
    simp only [String.length] at ih
    simp [hexOfByte, List.length_cons] at ih ⊢
    omega

theorem sha256_length (msg : List Nat) : (sha256 msg).length = 32 := by
  unfold sha256
  simp [bytesBE4]

/-- C1: semantically equal JSON values (same set of object keys with
semantically equal values, equal scalars, arrays equal element-wise in
order), under serde's no-duplicate-keys map invariant, canonicalize to
identical strings and hash to identical 64-character hex SHA-256
digests. -/
theorem C1_canonicalize_respects_semEq (a b : Json)
    (_hwa : a.wellFormedJ = true) (_hwb : b.wellFormedJ = true)
    (hse : Json.semEq a b = true) :
    a.canonicalize = b.canonicalize ∧ hashCanonical a = hashCanonical b ∧
      (hashCanonical a).length = 64 := by
  have hsa : jsonSize a ≤ jsonSize a + jsonSize b := Nat.le_add_right _ _
  have hsb : jsonSize b ≤ jsonSize a + jsonSize b := Nat.le_add_left _ _
  have hc : canonF (jsonSize a + jsonSize b) a = canonF (jsonSize a + jsonSize b) b :=
    canonF_semEq _ a b hsa hsb hse
  have h1 : a.canonicalize = b.canonicalize := by
    unfold Json.canonicalize
    calc canonF (jsonSize a) a
        = canonF (jsonSize a + jsonSize b) a := canonF_fuel _ _ a le_rfl hsa
      _ = canonF (jsonSize a + jsonSize b) b := hc
      _ = canonF (jsonSize b) b := canonF_fuel _ _ b hsb le_rfl
  refine ⟨h1, ?_, ?_⟩
  · unfold hashCanonical
    rw [h1]
  · unfold hashCanonical
    rw [hexEncode_length, sha256_length]

/-- Witness for `C1_canonicalize_respects_semEq`: two objects with the
same keys in different order. -/
theorem C1_canonicalize_respects_semEq_witness :
    ((Json.obj [("z", .num "1"), ("a", .str "x")]).wellFormedJ = true ∧
      (Json.obj [("a", .str "x"), ("z", .num "1")]).wellFormedJ = true ∧
      Json.semEq (.obj [("z", .num "1"), ("a", .str "x")])
        (.obj [("a", .str "x"), ("z", .num "1")]) = true) ∧
      (Json.obj [("z", .num "1"), ("a", .str "x")]).canonicalize =
        (Json.obj [("a", .str "x"), ("z", .num "1")]).canonicalize ∧
      hashCanonical (.obj [("z", .num "1"), ("a", .str "x")]) =
        hashCanonical (.obj [("a", .str "x"), ("z", .num "1")]) :=
  ⟨⟨by decide, by decide, by decide⟩,
    (C1_canonicalize_respects_semEq _ _ (by decide) (by decide) (by decide)).1,
    (C1_canonicalize_respects_semEq _ _ (by decide) (by decide) (by decide)).2.1⟩

/-! ## Obligations (`src/validation/obligations.rs`)

`Uuid::new_v4()` draws a fresh random id per obligation; the model takes
the id supply as a function `freshId : Nat → Uuid` giving the id of the
i-th obligation pushed, so "two runs" are two different supplies. -/

/-- `ObligationSeverity`. -/
inductive ObligationSeverity where
  | high
  | medium
  | low
  deriving DecidableEq, Repr

/-- `ObligationStatus` (`opened` models the source's `Open`, which is a
reserved word here). -/
inductive ObligationStatus where
  | opened
  | resolved
  deriving DecidableEq, Repr

/-- `ObligationType`. -/
inductive ObligationType where
  | contractTest
  | migration
  deriving DecidableEq, Repr

/-- `Obligation` from `src/validation/obligations.rs`. -/
structure Obligation where
  id : Uuid
  obligationType : ObligationType
  intentId : Option Uuid
  status : ObligationStatus
  severity : ObligationSeverity
  description : String
  serviceOperation : Option (String × String)
  table : Option String
  deriving DecidableEq, Repr

/-- `check_obligations` from `src/validation/obligations.rs`: one
HIGH ContractTest obligation per `(service, operation)` called, resolved
when a matching ContractTest intent exists; one HIGH Migration obligation
per table written, resolved when a Migration targets the table. -/
def checkObligations (store : IntentStore) (freshId : Nat → Uuid) :
    List Obligation :=
  let analysis := (analyzeEffects store).1
  let cts := analysis.servicesCalled.map (fun so =>
    let found := store.docs.find? (fun doc =>
      doc.kind == .contractTest &&
        (match doc.asContractTestSpec with
         | .ok spec => spec.service == so.1 && spec.operation == so.2
         | .error _ => false))
    ({ id := 0
       obligationType := .contractTest
       intentId := found.map (fun d => d.id)
       status := if found.isSome then .resolved else .opened
       severity := .high
       description := "Add contract test for " ++ so.1 ++ "." ++ so.2
       serviceOperation := some so
       table := none } : Obligation))
  let migs := analysis.tablesWritten.map (fun table =>
    let found := store.docs.find? (fun doc =>
      doc.kind == .migration &&
        (match doc.asMigrationSpec with
         | .ok spec => spec.table == table
         | .error _ => false))
    ({ id := 0
       obligationType := .migration
       intentId := found.map (fun d => d.id)
       status := if found.isSome then .resolved else .opened
       severity := .high
       description := "Add migration for table '" ++ table ++ "'"
       serviceOperation := none
       table := some table } : Obligation))
  (cts ++ migs).enum.map (fun io => { io.2 with id := freshId io.1 })

/-- The JSON field of an obligation status (`rename_all = "lowercase"`). -/
def obligationStatusJson : ObligationStatus → String
  | .opened => "\"open\""
  | .resolved => "\"resolved\""

/-- The JSON field of an obligation severity (`rename_all = "UPPERCASE"`). -/
def obligationSeverityJson : ObligationSeverity → String
  | .high => "\"HIGH\""
  | .medium => "\"MEDIUM\""
  | .low => "\"LOW\""

/-- The JSON field of an obligation type. -/
def obligationTypeJson : ObligationType → String
  | .contractTest => "\"ContractTest\""
  | .migration => "\"Migration\""

/-- One obligation as serde serializes it: struct field order, `None`
fields with `skip_serializing_if` omitted (pretty-printing whitespace
elided; the serialization is a deterministic function of the fields). -/
def obligationJson (o : Obligation) : String :=
  "\x7b\"id\":\"" ++ toString o.id ++ "\",\"type\":" ++ obligationTypeJson o.obligationType ++
    ",\"intent_id\":" ++
    (match o.intentId with
     | some i => "\"" ++ toString i ++ "\""
     | none => "null") ++
    ",\"status\":" ++ obligationStatusJson o.status ++
    ",\"severity\":" ++ obligationSeverityJson o.severity ++
    ",\"description\":\"" ++ o.description ++ "\"" ++
    (match o.serviceOperation with
     | some so => ",\"service_operation\":[\"" ++ so.1 ++ "\",\"" ++ so.2 ++ "\"]"
     | none => "") ++
    (match o.table with
     | some t => ",\"table\":\"" ++ t ++ "\""
     | none => "") ++ "\x7d"

/-- `write_obligations_lock`: the bytes of
`.intent/locks/obligations.json` (`{"obligations": [...]}`). -/
def obligationsLockContent (obs : List Obligation) : String :=
  "\x7b\"obligations\":[" ++ String.intercalate "," (obs.map obligationJson) ++ "]\x7d"

/-! ## Generation manifest and trace map (`src/codegen/manifest.rs`,
`src/codegen/trace.rs`) -/

/-- `FileEntry` from `src/codegen/manifest.rs`. -/
structure FileEntry where
  hash : String
  sourceIntents : List String
  deriving DecidableEq, Repr

/-- `BTreeMap::insert`: keep the association list sorted by key. -/
def btInsert {α : Type} (k : String) (v : α) :
    List (String × α) → List (String × α)
  | [] => [(k, v)]
  | (k2, v2) :: rest =>
    if k = k2 then (k, v) :: rest
    else if strLe k k2 then (k, v) :: (k2, v2) :: rest
    else (k2, v2) :: btInsert k v rest

/-- `BTreeMap` `entry(k).or_default().push(v)` on a map of lists. -/
def btPushEntry {α : Type} (k : String) (v : α) :
    List (String × List α) → List (String × List α)
  | [] => [(k, [v])]
  | (k2, vs) :: rest =>
    if k = k2 then (k2, vs ++ [v]) :: rest
    else if strLe k k2 then (k, [v]) :: (k2, vs) :: rest
    else (k2, vs) :: btPushEntry k v rest

/-- `GenManifest` from `src/codegen/manifest.rs`: `BTreeMap`s modelled as
key-sorted association lists. -/
structure GenManifest where
  version : String
  files : List (String × FileEntry)
  sourceHashes : List (String × String)
  deriving DecidableEq, Repr

/-- `GenManifest::new`. -/
def GenManifest.create : GenManifest := ⟨"1.0", [], []⟩

/-- `GenManifest::add_file`. -/
def GenManifest.addFile (m : GenManifest) (path content : String)
    (sourceIntents : List String) : GenManifest :=
  { m with files := btInsert path ⟨computeHash content, sourceIntents⟩ m.files }

/-- `TraceEntry` from `src/codegen/trace.rs`. -/
structure TraceEntry where
  file : String
  line : Nat
  symbol : String
  deriving DecidableEq, Repr

/-- `TraceMap` from `src/codegen/trace.rs`. -/
structure TraceMap where
  intentToRust : List (String × List TraceEntry)
  rustToIntent : List (String × String)
  deriving DecidableEq, Repr

/-- `TraceMap::add`. -/
def TraceMap.addT (t : TraceMap) (intentId : Uuid) (file : String) (line : Nat)
    (symbol : String) : TraceMap :=
  { intentToRust := btPushEntry (toString intentId) ⟨file, line, symbol⟩ t.intentToRust
    rustToIntent :=
      btInsert (file ++ ":" ++ toString line) (toString intentId) t.rustToIntent }

/-- `to_snake_case` from `src/codegen/trace.rs`. -/
def toSnakeCase (s : String) : String :=
  String.mk (s.toList.enum.flatMap (fun ic =>
    if ic.2.isUpper then
      (if ic.1 > 0 then ['_'] else []) ++ [ic.2.toLower]
    else [ic.2]))

/-- `generate_trace_map` from `src/codegen/trace.rs`: types at lines 10,
20, …, one endpoint/workflow module file each at line 10. -/
def generateTraceMap (store : IntentStore) : TraceMap :=
  let t : TraceMap := ⟨[], []⟩
  let t := store.types.enum.foldl
    (fun t idoc => t.addT idoc.2.id "gen/src/types.rs" (10 + 10 * idoc.1) idoc.2.name) t
  let t := store.endpoints.foldl
    (fun t doc =>
      t.addT doc.id ("gen/src/endpoints/" ++ toSnakeCase doc.name ++ ".rs") 10
        (toSnakeCase doc.name)) t
  store.workflows.foldl
    (fun t doc =>
      t.addT doc.id ("gen/src/workflows/" ++ toSnakeCase doc.name ++ ".rs") 10
        (toSnakeCase doc.name)) t

/-! ## Generation orchestrator (`src/codegen/mod.rs`)

The template renderers (`generate_cargo_toml`, `generate_lib_rs`,
`generate_types`, `generate_errors`, `generate_endpoints`,
`generate_workflows`, `generate_effects`) live in
`src/codegen/crate_gen.rs`, `types.rs`, `errors.rs`, `endpoints.rs`,
`workflows.rs` and `effects.rs`, which are not among the provided
sources; they are modelled from the spec (§1, §4.10, §6): each renders
content as a deterministic pure function of the store and the loaded
configuration, and the claims below do not depend on the rendered text.
Filesystem reads are modelled by `disk : String → Option String`. -/

/-- `IntentConfig` from `src/parser/config.rs` (the fields the generator
reads). -/
structure IntentConfig where
  projectName : String
  projectVersion : String
  rustEdition : String
  httpClient : String
  dbClient : String
  deriving DecidableEq, Repr

/-- Modelled from the spec: `generate_cargo_toml` (in the missing
`src/codegen/crate_gen.rs`) renders a manifest from the configuration. -/
def generateCargoToml (config : IntentConfig) : String :=
  "[package]\nname = \"" ++ config.projectName ++ "\"\nversion = \"" ++
    config.projectVersion ++ "\"\nedition = \"" ++ config.rustEdition ++ "\"\n"

/-- Modelled from the spec: `generate_lib_rs` (in the missing
`src/codegen/crate_gen.rs`) renders the crate root. -/
def generateLibRs (store : IntentStore) : String :=
  "pub mod types;\npub mod errors;\npub mod endpoints;\npub mod workflows;\npub mod effects;\n" ++
    "// " ++ toString store.size ++ " intents\n"

/-- Modelled from the spec: `generate_types` (in the missing
`src/codegen/types.rs`) renders one item per `Type` intent. -/
def generateTypes (store : IntentStore) : String :=
  String.intercalate "\n" (store.types.map (fun d => "pub struct " ++ d.name ++ ";"))

/-- Modelled from the spec: `generate_errors` (in the missing
`src/codegen/errors.rs`) renders error types from the endpoints. -/
def generateErrors (store : IntentStore) : String :=
  String.intercalate "\n" (store.endpoints.map (fun d => "// errors for " ++ d.name))

/-- The `mod_rs` + per-file output of the endpoint/workflow generators. -/
structure ModulesOutput where
  modRs : String
  files : List (String × String)
  deriving DecidableEq, Repr

/-- Modelled from the spec: `generate_endpoints` (in the missing
`src/codegen/endpoints.rs`). -/
def generateEndpoints (store : IntentStore) : ModulesOutput :=
  { modRs := String.intercalate "\n"
      (store.endpoints.map (fun d => "pub mod " ++ toSnakeCase d.name ++ ";"))
    files := store.endpoints.map (fun d =>
      (toSnakeCase d.name ++ ".rs", "pub fn " ++ toSnakeCase d.name ++ "() \x7b\x7d")) }

/-- Modelled from the spec: `generate_workflows` (in the missing
`src/codegen/workflows.rs`). -/
def generateWorkflows (store : IntentStore) : ModulesOutput :=
  { modRs := String.intercalate "\n"
      (store.workflows.map (fun d => "pub mod " ++ toSnakeCase d.name ++ ";"))
    files := store.workflows.map (fun d =>
      (toSnakeCase d.name ++ ".rs", "pub fn " ++ toSnakeCase d.name ++ "() \x7b\x7d")) }

/-- The four effect-runtime files of `generate_effects`. -/
structure EffectsOutput where
  modRs : String
  httpRs : String
  dbRs : String
  eventsRs : String
  deriving DecidableEq, Repr

/-- Modelled from the spec: `generate_effects` (in the missing
`src/codegen/effects.rs`). -/
def generateEffects (store : IntentStore) (config : IntentConfig) : EffectsOutput :=
  { modRs := "pub mod http;\npub mod db;\npub mod events;\n"
    httpRs := "// http client: " ++ config.httpClient ++ "\n"
    dbRs := "// db client: " ++ config.dbClient ++ "\n"
    eventsRs := "// events for " ++ toString store.size ++ " intents\n" }

/-- Modelled from the spec: the per-file record of `GenerationResult`
(in the missing `src/codegen/crate_gen.rs`): §4.10 requires check mode to
record per-file `matches` and a reason for mismatch. -/
structure GenFileResult where
  path : String
  isMatch : Bool
  reason : String
  deriving DecidableEq, Repr

/-- Modelled from the spec: `GenerationResult` (in the missing
`src/codegen/crate_gen.rs`); `matchesAll` is §4.10's
`result.matches = ∀ file. file.matches`. -/
structure GenerationResult where
  files : List GenFileResult
  deriving DecidableEq, Repr

/-- §4.10: the aggregate `result.matches`. -/
def GenerationResult.matchesAll (r : GenerationResult) : Bool :=
  r.files.all (fun f => f.isMatch)

/-- The ordered `write_or_check` call sequence of `generate_all`
(`src/codegen/mod.rs`): path, content, and contributing intent ids. -/
def genFileList (store : IntentStore) (config : IntentConfig) :
    List (String × String × List String) :=
  let typeIds := store.types.map (fun d => toString d.id)
  let endpointIds := store.endpoints.map (fun d => toString d.id)
  let workflowIds := store.workflows.map (fun d => toString d.id)
  let endpointsOutput := generateEndpoints store
  let workflowsOutput := generateWorkflows store
  let effectsOutput := generateEffects store config
  [("gen/Cargo.toml", generateCargoToml config, []),
   ("gen/src/lib.rs", generateLibRs store, []),
   ("gen/src/types.rs", generateTypes store, typeIds),
   ("gen/src/errors.rs", generateErrors store, endpointIds),
   ("gen/src/endpoints/mod.rs", endpointsOutput.modRs, endpointIds)] ++
    endpointsOutput.files.map (fun f => ("gen/src/endpoints/" ++ f.1, f.2, [])) ++
    [("gen/src/workflows/mod.rs", workflowsOutput.modRs, workflowIds)] ++
    workflowsOutput.files.map (fun f => ("gen/src/workflows/" ++ f.1, f.2, [])) ++
    [("gen/src/effects/mod.rs", effectsOutput.modRs, []),
     ("gen/src/effects/http.rs", effectsOutput.httpRs, []),
     ("gen/src/effects/db.rs", effectsOutput.dbRs, []),
     ("gen/src/effects/events.rs", effectsOutput.eventsRs, [])]

/-- Everything `generate_all` produces and persists. -/
structure GenArtifacts where
  result : GenerationResult
  writes : List (String × String)
  manifest : GenManifest
  trace : TraceMap
  obligations : List Obligation
  obligationsLock : String
  deriving DecidableEq, Repr

/-- `generate_all` from `src/codegen/mod.rs`: every file goes through
`write_or_check` (per-file `matches` against the on-disk content, a
manifest entry, and — in write mode — a write); in write mode the
manifest, the trace map and the obligations lock are then persisted. -/
def generateAll (store : IntentStore) (config : IntentConfig) (checkOnly : Bool)
    (disk : String → Option String) (freshId : Nat → Uuid) : GenArtifacts :=
  let files := genFileList store config
  let result : GenerationResult :=
    ⟨files.map (fun f =>
      { path := f.1
        isMatch := disk f.1 == some f.2.1
        reason := if disk f.1 == some f.2.1 then "" else "content mismatch" })⟩
  let manifest := files.foldl (fun m f => m.addFile f.1 f.2.1 f.2.2) GenManifest.create
  if checkOnly then
    { result := result, writes := [], manifest := manifest,
      trace := ⟨[], []⟩, obligations := [], obligationsLock := "" }
  else
    let obligations := checkObligations store freshId
    { result := result
      writes := files.map (fun f => (f.1, f.2.1))
      manifest := manifest
      trace := generateTraceMap store
      obligations := obligations
      obligationsLock := obligationsLockContent obligations }

/-! ## `cmd_gen` and `cmd_verify` (`src/cli/commands.rs`) -/

/-- `FormatResult` from `src/parser/canonical.rs`. -/
structure FormatResult where
  path : String
  changed : Bool
  deriving DecidableEq, Repr

/-- `cmd_gen` from `src/cli/commands.rs`, with the store, configuration,
disk state and id supply as inputs and printing elided: validate first
and exit 2 on any error without generating; otherwise generate, and in
check mode exit 3 on mismatch.  Returns the exit code and the list of
file writes performed. -/
def cmdGen (store : IntentStore) (config : IntentConfig) (check : Bool)
    (disk : String → Option String) (freshId : Nat → Uuid) :
    Nat × List (String × String) :=
  let validationResult := validateAll store
  if ¬ validationResult.errors.isEmpty then (exitValidationError, [])
  else
    let result := generateAll store config check disk freshId
    if check ∧ ¬ result.result.matchesAll then (exitGenerationMismatch, result.writes)
    else (exitSuccess, result.writes)

/-- `cmd_verify` from `src/cli/commands.rs`: format-check, validate,
generate in check mode, then obligations, returning at the first failing
step. -/
def cmdVerify (fmtResults : List FormatResult) (store : IntentStore)
    (config : IntentConfig) (disk : String → Option String)
    (freshId : Nat → Uuid) : Nat :=
  let needsFormatting := fmtResults.filter (fun r => r.changed)
  if ¬ needsFormatting.isEmpty then exitGeneralError
  else
    let validationResult := validateAll store
    if ¬ validationResult.errors.isEmpty then exitValidationError
    else
      let genResult := generateAll store config true disk freshId
      if ¬ genResult.result.matchesAll then exitGenerationMismatch
      else
        let obligations := checkObligations store freshId
        let highObligations := obligations.filter (fun o =>
          o.severity == .high && o.status == .opened)
        if ¬ highObligations.isEmpty then exitOpenObligations
        else exitSuccess

/-- The verify pipeline as §4.12 and the §6 exit-code table of the spec
describe it: `format-check` → `validate` → `generate --check` →
`obligations`; the first failure maps to exit code 1, 2, 3 or 5
respectively, and success (0) requires every step to pass and no
HIGH-severity obligation to remain open. -/
def verifySpecExit (fmtResults : List FormatResult) (store : IntentStore)
    (config : IntentConfig) (disk : String → Option String)
    (freshId : Nat → Uuid) : Nat :=
  if fmtResults.any (fun r => r.changed) then 1
  else if ¬ (validateAll store).errors.isEmpty then 2
  else if ¬ (generateAll store config true disk freshId).result.matchesAll then 3
  else if (checkObligations store freshId).any (fun o =>
      o.severity == .high && o.status == .opened) then 5
  else 0

theorem filter_isEmpty_eq_not_any {α : Type} (p : α → Bool) (l : List α) :
    (l.filter p).isEmpty = ! l.any p := by
  induction l with
  | nil => rfl
  | cons x xs ih =>
    by_cases h : p x
    · simp [List.filter_cons, h]
    · simp [List.filter_cons, h, ih]

/-- C7: `cmd_verify` implements the spec's verify pipeline: the steps run
in order, the first failure returns exit code 1 (formatting drift),
2 (validation errors), 3 (generation mismatch) or 5 (open HIGH-severity
obligations), and 0 is returned exactly when every step passes and no
HIGH-severity obligation is open. -/
theorem C7_verify_pipeline (fmtResults : List FormatResult) (store : IntentStore)
    (config : IntentConfig) (disk : String → Option String) (freshId : Nat → Uuid) :
    cmdVerify fmtResults store config disk freshId =
        verifySpecExit fmtResults store config disk freshId ∧
      (cmdVerify fmtResults store config disk freshId = 0 ↔
        (fmtResults.all (fun r => ! r.changed) = true ∧
          (validateAll store).errors = [] ∧
          (generateAll store config true disk freshId).result.matchesAll = true ∧
          ∀ o ∈ checkObligations store freshId,
            ¬ (o.severity = .high ∧ o.status = .opened))) := by
  have heq : cmdVerify fmtResults store config disk freshId =
      verifySpecExit fmtResults store config disk freshId := by
    simp only [cmdVerify, verifySpecExit, filter_isEmpty_eq_not_any,
      exitGeneralError, exitValidationError, exitGenerationMismatch,
      exitOpenObligations, exitSuccess]
    by_cases h1 : fmtResults.any (fun r => r.changed) = true <;>
      by_cases h2 : (validateAll store).errors.isEmpty = true <;>
        by_cases h3 : (generateAll store config true disk freshId).result.matchesAll
            = true <;>
          by_cases h4 : (checkObligations store freshId).any (fun o =>
              o.severity == .high && o.status == .opened) = true <;>
            simp [h1, h2, h3, h4]
  have haux1 : (fmtResults.all (fun r => ! r.changed) = true) ↔
      (fmtResults.any (fun r => r.changed) = false) := by
    induction fmtResults with
    | nil => simp
    | cons x xs ih => by_cases h : x.changed = true <;> simp [h, ih]
  have haux2 : ((validateAll store).errors = []) ↔
      ((validateAll store).errors.isEmpty = true) := by
    cases (validateAll store).errors <;> simp
  have haux4 : (∀ o ∈ checkObligations store freshId,
        ¬ (o.severity = .high ∧ o.status = .opened)) ↔
      ((checkObligations store freshId).any (fun o =>
        o.severity == .high && o.status == .opened) = false) := by
    rw [← Bool.not_eq_true, List.any_eq_true]
    simp only [Bool.and_eq_true, beq_iff_eq, not_exists, not_and]
  refine ⟨heq, ?_⟩
  rw [heq, and_congr haux1 (and_congr haux2 (and_congr Iff.rfl haux4))]
  unfold verifySpecExit
  by_cases h1 : fmtResults.any (fun r => r.changed) = true <;>
    by_cases h2 : (validateAll store).errors.isEmpty = true <;>
      by_cases h3 : (generateAll store config true disk freshId).result.matchesAll
          = true <;>
        by_cases h4 : (checkObligations store freshId).any (fun o =>
            o.severity == .high && o.status == .opened) = true <;>
          simp [h1, h2, h3, h4, exitGeneralError, exitValidationError,
            exitGenerationMismatch, exitOpenObligations, exitSuccess]

/-! ## C8: generation determinism -/

/-- Every field of an obligation except the freshly drawn `id`. -/
def Obligation.stripId (o : Obligation) :
    ObligationType × Option Uuid × ObligationStatus × ObligationSeverity ×
      String × Option (String × String) × Option String :=
  (o.obligationType, o.intentId, o.status, o.severity, o.description,
    o.serviceOperation, o.table)

theorem enumFrom_map_stripId (g : Nat → Uuid) (n : Nat) (l : List Obligation) :
    ((l.enumFrom n).map (fun io => { io.2 with id := g io.1 })).map
        Obligation.stripId = l.map Obligation.stripId := by
  induction l generalizing n with
  | nil => rfl
  | cons x xs ih => simp [List.enumFrom, ih, Obligation.stripId]

/-- A one-document corpus whose workflow calls `Payments.charge`, so
`check_obligations` emits one (fresh-id) ContractTest obligation. -/
def storeC8 : IntentStore := loadSeq [docWorkflowPayments]

/-- A loaded configuration for the generator. -/
def cfg0 : IntentConfig := ⟨"demo", "0.1.0", "2021", "reqwest", "sqlx"⟩

/-- An empty starting disk. -/
def disk0 : String → Option String := fun _ => none

/-- C8 (counterexample): two write-mode runs over the same store that
draw different obligation ids produce different persisted
`obligations.json` bytes, so the generated output is not byte-identical
across runs: the obligation ids come from `Uuid::new_v4()` and are not
part of any sorted identity. -/
theorem C8_counterexample :
    generateAll storeC8 cfg0 false disk0 (fun i => i) ≠
      generateAll storeC8 cfg0 false disk0 (fun i => i + 1) :=
  fun h => absurd (congrArg GenArtifacts.obligationsLock h) (by decide)

/-- C8 (amended): generation is deterministic in everything except the
obligation ids: for any two id supplies, write-mode `generate_all`
produces identical file results, writes, manifest and trace map, and the
obligations agree on every field but `id` (in their common,
supply-independent order). -/
theorem C8_determinism_except_obligation_ids (store : IntentStore)
    (config : IntentConfig) (disk : String → Option String) (g1 g2 : Nat → Uuid) :
    (generateAll store config false disk g1).result =
        (generateAll store config false disk g2).result ∧
      (generateAll store config false disk g1).writes =
        (generateAll store config false disk g2).writes ∧
      (generateAll store config false disk g1).manifest =
        (generateAll store config false disk g2).manifest ∧
      (generateAll store config false disk g1).trace =
        (generateAll store config false disk g2).trace ∧
      (generateAll store config false disk g1).obligations.map Obligation.stripId =
        (generateAll store config false disk g2).obligations.map Obligation.stripId := by
  refine ⟨rfl, rfl, rfl, rfl, ?_⟩
  show (checkObligations store g1).map Obligation.stripId =
    (checkObligations store g2).map Obligation.stripId
  simp only [checkObligations, List.enum]
  rw [enumFrom_map_stripId, enumFrom_map_stripId]

/-! ## C10: `cmd_gen` validates before generating -/

/-- C10: `cmd_gen` runs full validation first; whenever validation
reports any error it exits with code 2 and performs no generation —
no file is written — in both write and check mode. -/
theorem C10_gen_requires_valid (store : IntentStore) (config : IntentConfig)
    (check : Bool) (disk : String → Option String) (freshId : Nat → Uuid)
    (h : (validateAll store).errors ≠ []) :
    cmdGen store config check disk freshId = (exitValidationError, []) := by
  have hne : ¬ (validateAll store).errors.isEmpty = true := by
    intro hempty
    exact h (List.isEmpty_iff.mp hempty)
  simp [cmdGen, hne]

/-- Witness for `C10_gen_requires_valid`: the corpus with a dangling
endpoint reference validates with errors, and `cmd_gen` returns exit
code 2 with no writes. -/
theorem C10_gen_requires_valid_witness :
    (validateAll storeC5).errors ≠ [] ∧
      cmdGen storeC5 cfg0 false disk0 (fun i => i) = (exitValidationError, []) :=
  ⟨by decide, C10_gen_requires_valid storeC5 cfg0 false disk0 (fun i => i) (by decide)⟩

/-! ## Semantic diff (`src/diff/categories.rs`, `src/diff/semantic.rs`) -/

/-- `DiffCategory` from `src/diff/categories.rs`. -/
inductive DiffCategory where
  | apiSurface
  | dataSchema
  | effects
  | policies
  | authZ
  | pii
  | concurrency
  | errorSemantics
  deriving DecidableEq, Repr

/-- The `Display` implementation for `DiffCategory`. -/
def DiffCategory.display : DiffCategory → String
  | .apiSurface => "API Surface"
  | .dataSchema => "Data Schema"
  | .effects => "Effects"
  | .policies => "Policies"
  | .authZ => "AuthZ"
  | .pii => "PII"
  | .concurrency => "Concurrency"
  | .errorSemantics => "Error Semantics"

/-- `DiffSeverity` from `src/diff/categories.rs` (declaration order
`Info < Low < Medium < High` gives the derived `Ord`). -/
inductive DiffSeverity where
  | info
  | low
  | medium
  | high
  deriving DecidableEq, Repr

/-- The derived `Ord` of `DiffSeverity` as a rank. -/
def DiffSeverity.rank : DiffSeverity → Nat
  | .info => 0
  | .low => 1
  | .medium => 2
  | .high => 3

/-- `SemanticChange` from `src/diff/categories.rs`. -/
structure SemanticChange where
  category : DiffCategory
  severity : DiffSeverity
  description : String
  intentName : Option String
  intentKind : Option String
  oldValue : Option String
  newValue : Option String
  deriving DecidableEq, Repr

/-- `added_intent_severity` from `src/diff/semantic.rs`. -/
def addedIntentSeverity (doc : IntentDocument) : DiffSeverity :=
  match doc.kind with
  | .endpoint => .high
  | .workflow =>
    match doc.asWorkflowSpec with
    | .ok spec =>
      if spec.steps.any (fun s =>
          match s with
          | .effect e => e.effect = .httpCall
          | _ => false) then .high
      else .medium
    | .error _ => .medium
  | .type => .low
  | .service => .medium
  | .contractTest => .info
  | .migration => .medium
  | .function => .medium
  | .pipeline => .medium
  | .template => .low
  | .enum => .medium
  | .module => .low
  | .command => .medium
  | .trait => .medium

/-- `category_for_kind` from `src/diff/semantic.rs`. -/
def categoryForKind : IntentKind → DiffCategory
  | .type => .dataSchema
  | .endpoint => .apiSurface
  | .workflow => .effects
  | .service => .effects
  | .contractTest => .effects
  | .migration => .dataSchema
  | .function => .effects
  | .pipeline => .effects
  | .template => .dataSchema
  | .enum => .dataSchema
  | .module => .dataSchema
  | .command => .apiSurface
  | .trait => .dataSchema

/-- The effect-severity match used by `check_new_effects` and
`diff_workflow`. -/
def effectSeverity : EffectKind → DiffSeverity
  | .httpCall => .high
  | .dbWrite => .high
  | .dbDelete => .high
  | .emitEvent => .medium
  | .dbRead => .low

/-- `check_new_effects` from `src/diff/semantic.rs`. -/
def checkNewEffects (doc : IntentDocument) : List SemanticChange :=
  match doc.asWorkflowSpec with
  | .error _ => []
  | .ok spec =>
    spec.steps.filterMap (fun step =>
      match step with
      | .effect e => some
          { category := .effects
            severity := effectSeverity e.effect
            description := "New " ++ e.effect.display ++ " effect in workflow '" ++
              doc.name ++ "'"
            intentName := some doc.name
            intentKind := some "Workflow"
            oldValue := none
            newValue := none }
      | _ => none)

/-- `{}` rendering of a `TypeRef` in diff messages. -/
def trStr (t : TypeRef) : String := String.mk t.print

/-- `{:?}` rendering of an `Option<u64>` in diff messages. -/
def debugOptNat : Option Nat → String
  | none => "None"
  | some n => "Some(" ++ toString n ++ ")"

/-- `{:?}` rendering of an `Option<String>` in diff messages. -/
def debugOptStr : Option String → String
  | none => "None"
  | some s => "Some(\"" ++ s ++ "\")"

/-- `diff_type` from `src/diff/semantic.rs`: added, removed, then changed
fields (`HashSet` iteration modelled in key-list order). -/
def diffType (base current : IntentDocument) : List SemanticChange :=
  match base.asTypeSpec, current.asTypeSpec with
  | .ok baseSpec, .ok currentSpec =>
    let baseKeys := baseSpec.fields.map Prod.fst
    let currentKeys := currentSpec.fields.map Prod.fst
    let added := (currentKeys.filter (fun k => decide (¬ k ∈ baseKeys))).filterMap
      (fun field =>
        (lookupA field currentSpec.fields).map (fun fieldDef =>
          { category := .dataSchema
            severity := if fieldDef.required then DiffSeverity.high else .low
            description := "Added " ++
              (if fieldDef.required then "required" else "optional") ++
              " field '" ++ field ++ "' to type '" ++ current.name ++ "'"
            intentName := some current.name
            intentKind := some "Type"
            oldValue := none
            newValue := none }))
    let removed := (baseKeys.filter (fun k => decide (¬ k ∈ currentKeys))).map
      (fun field =>
        { category := .dataSchema
          severity := .high
          description := "Removed field '" ++ field ++ "' from type '" ++
            current.name ++ "'"
          intentName := some current.name
          intentKind := some "Type"
          oldValue := none
          newValue := none })
    let changed := (baseKeys.filter (fun k => decide (k ∈ currentKeys))).flatMap
      (fun field =>
        match lookupA field baseSpec.fields, lookupA field currentSpec.fields with
        | some baseField, some currentField =>
          (if baseField.fieldType ≠ currentField.fieldType then
            [{ category := .dataSchema
               severity := .high
               description := "Changed type of field '" ++ field ++ "' in '" ++
                 current.name ++ "' from " ++ trStr baseField.fieldType ++
                 " to " ++ trStr currentField.fieldType
               intentName := some current.name
               intentKind := some "Type"
               oldValue := some (trStr baseField.fieldType)
               newValue := some (trStr currentField.fieldType) }]
          else []) ++
          (if baseField.required ≠ currentField.required then
            [{ category := .dataSchema
               severity :=
                 if currentField.required ∧ ¬ baseField.required then
                   DiffSeverity.high
                 else .low
               description := "Changed field '" ++ field ++ "' in '" ++
                 current.name ++ "' from " ++
                 (if baseField.required then "required" else "optional") ++
                 " to " ++
                 (if currentField.required then "required" else "optional")
               intentName := some current.name
               intentKind := some "Type"
               oldValue := none
               newValue := none }]
          else [])
        | _, _ => [])
    added ++ removed ++ changed
  | _, _ => []

/-- `diff_endpoint` from `src/diff/semantic.rs`. -/
def diffEndpoint (base current : IntentDocument) : List SemanticChange :=
  match base.asEndpointSpec, current.asEndpointSpec with
  | .ok baseSpec, .ok currentSpec =>
    (if baseSpec.path ≠ currentSpec.path then
      [{ category := .apiSurface
         severity := .high
         description := "Endpoint path changed from '" ++ baseSpec.path ++
           "' to '" ++ currentSpec.path ++ "'"
         intentName := some current.name
         intentKind := some "Endpoint"
         oldValue := some baseSpec.path
         newValue := some currentSpec.path }]
     else []) ++
    (if baseSpec.method ≠ currentSpec.method then
      [{ category := .apiSurface
         severity := .high
         description := "Endpoint method changed from " ++
           baseSpec.method.display ++ " to " ++ currentSpec.method.display
         intentName := some current.name
         intentKind := some "Endpoint"
         oldValue := none
         newValue := none }]
     else []) ++
    (if baseSpec.input ≠ currentSpec.input then
      [{ category := .apiSurface
         severity := .high
         description := "Endpoint input type changed from '" ++ baseSpec.input ++
           "' to '" ++ currentSpec.input ++ "'"
         intentName := some current.name
         intentKind := some "Endpoint"
         oldValue := none
         newValue := none }]
     else []) ++
    (if baseSpec.output ≠ currentSpec.output then
      [{ category := .apiSurface
         severity := .high
         description := "Endpoint output type changed from '" ++ baseSpec.output ++
           "' to '" ++ currentSpec.output ++ "'"
         intentName := some current.name
         intentKind := some "Endpoint"
         oldValue := none
         newValue := none }]
     else []) ++
    (match checkAuthzWidening base current with
     | some widening =>
       [{ category := .authZ
          severity := .high
          description := widening
          intentName := some current.name
          intentKind := some "Endpoint"
          oldValue := none
          newValue := none }]
     | none => []) ++
    (if baseSpec.policies.timeoutMs ≠ currentSpec.policies.timeoutMs then
      [{ category := .policies
         severity :=
           if currentSpec.policies.timeoutMs = none then DiffSeverity.high
           else .medium
         description := "Timeout changed from " ++
           debugOptNat baseSpec.policies.timeoutMs ++ " to " ++
           debugOptNat currentSpec.policies.timeoutMs
         intentName := some current.name
         intentKind := some "Endpoint"
         oldValue := none
         newValue := none }]
     else []) ++
    (if baseSpec.policies.retries ≠ currentSpec.policies.retries then
      [{ category := .policies
         severity := .medium
         description := "Retry policy changed"
         intentName := some current.name
         intentKind := some "Endpoint"
         oldValue := none
         newValue := none }]
     else []) ++
    (if baseSpec.idempotencyKey ≠ currentSpec.idempotencyKey then
      [{ category := .concurrency
         severity := .high
         description := "Idempotency key changed from " ++
           debugOptStr baseSpec.idempotencyKey ++ " to " ++
           debugOptStr currentSpec.idempotencyKey
         intentName := some current.name
         intentKind := some "Endpoint"
         oldValue := none
         newValue := none }]
     else []) ++
    (let baseErrors := baseSpec.errors.map (fun e => e.code)
     let currentErrors := currentSpec.errors.map (fun e => e.code)
     (currentErrors.filter (fun c => decide (¬ c ∈ baseErrors))).map (fun err =>
       { category := .errorSemantics
         severity := .medium
         description := "Added error code '" ++ err ++ "'"
         intentName := some current.name
         intentKind := some "Endpoint"
         oldValue := none
         newValue := none }) ++
     (baseErrors.filter (fun c => decide (¬ c ∈ currentErrors))).map (fun err =>
       { category := .errorSemantics
         severity := .medium
         description := "Removed error code '" ++ err ++ "'"
         intentName := some current.name
         intentKind := some "Endpoint"
         oldValue := none
         newValue := none }))
  | _, _ => []

/-- `diff_workflow` from `src/diff/semantic.rs`. -/
def diffWorkflow (base current : IntentDocument) : List SemanticChange :=
  match base.asWorkflowSpec, current.asWorkflowSpec with
  | .ok baseSpec, .ok currentSpec =>
    let baseEffects := baseSpec.steps.filterMap (fun s =>
      match s with
      | .effect e => some (e.effect, e.service, e.operation)
      | _ => none)
    let currentEffects := currentSpec.steps.filterMap (fun s =>
      match s with
      | .effect e => some (e.effect, e.service, e.operation)
      | _ => none)
    (currentEffects.filter (fun e => decide (¬ e ∈ baseEffects))).map (fun e =>
      { category := .effects
        severity := effectSeverity e.1
        description := "Added " ++ e.1.display ++ " effect"
        intentName := some current.name
        intentKind := some "Workflow"
        oldValue := none
        newValue := none }) ++
    (baseEffects.filter (fun e => decide (¬ e ∈ currentEffects))).map (fun e =>
      { category := .effects
        severity := .medium
        description := "Removed " ++ e.1.display ++ " effect"
        intentName := some current.name
        intentKind := some "Workflow"
        oldValue := none
        newValue := none })
  | _, _ => []

/-- `diff_service` from `src/diff/semantic.rs`. -/
def diffService (base current : IntentDocument) : List SemanticChange :=
  match base.asServiceSpec, current.asServiceSpec with
  | .ok baseSpec, .ok currentSpec =>
    (if baseSpec.baseUrl ≠ currentSpec.baseUrl then
      [{ category := .effects
         severity := .medium
         description := "Service base URL changed from '" ++ baseSpec.baseUrl ++
           "' to '" ++ currentSpec.baseUrl ++ "'"
         intentName := some current.name
         intentKind := some "Service"
         oldValue := none
         newValue := none }]
     else []) ++
    (let baseOps := baseSpec.operations.map Prod.fst
     let currentOps := currentSpec.operations.map Prod.fst
     (currentOps.filter (fun op => decide (¬ op ∈ baseOps))).map (fun op =>
       { category := .effects
         severity := .medium
         description := "Added operation '" ++ op ++ "'"
         intentName := some current.name
         intentKind := some "Service"
         oldValue := none
         newValue := none }) ++
     (baseOps.filter (fun op => decide (¬ op ∈ currentOps))).map (fun op =>
       { category := .effects
         severity := .high
         description := "Removed operation '" ++ op ++ "'"
         intentName := some current.name
         intentKind := some "Service"
         oldValue := none
         newValue := none }))
  | _, _ => []

/-- The INFO rename change `diff_intent` emits when the name differs. -/
def renameChange (base current : IntentDocument) : SemanticChange :=
  { category := categoryForKind current.kind
    severity := .info
    description := current.kind.display ++ " renamed from '" ++ base.name ++
      "' to '" ++ current.name ++ "'"
    intentName := some current.name
    intentKind := some current.kind.display
    oldValue := some base.name
    newValue := some current.name }

/-- `diff_intent` from `src/diff/semantic.rs`: an INFO rename change when
the name differs, then the per-kind spec diff. -/
def diffIntent (base current : IntentDocument) : List SemanticChange :=
  (if base.name ≠ current.name then [renameChange base current] else []) ++
  (match current.kind with
   | .type => diffType base current
   | .endpoint => diffEndpoint base current
   | .workflow => diffWorkflow base current
   | .service => diffService base current
   | _ => [])

/-- The "Added intent" change of `compute_diff`. -/
def addedChange (doc : IntentDocument) : SemanticChange :=
  { category := categoryForKind doc.kind
    severity := addedIntentSeverity doc
    description := "Added " ++ doc.kind.display ++ " '" ++ doc.name ++ "'"
    intentName := some doc.name
    intentKind := some doc.kind.display
    oldValue := none
    newValue := none }

/-- The "Removed intent" change of `compute_diff`. -/
def removedChange (doc : IntentDocument) : SemanticChange :=
  { category := categoryForKind doc.kind
    severity := .high
    description := "Removed " ++ doc.kind.display ++ " '" ++ doc.name ++ "'"
    intentName := some doc.name
    intentKind := some doc.kind.display
    oldValue := none
    newValue := none }

/-- The modified-intents pass of `compute_diff`: for each id in both
stores (iterated in base order; ids are unique in a store), diff the two
documents when spec or name differs. -/
def modifiedChanges (baseDocs curDocs : List IntentDocument) : List SemanticChange :=
  (baseDocs.filter (fun x => decide (x.id ∈ curDocs.map (fun y => y.id)))).flatMap
    (fun baseDoc =>
      match curDocs.find? (fun y => y.id == baseDoc.id) with
      | some currentDoc =>
        if baseDoc.spec ≠ currentDoc.spec ∨ baseDoc.name ≠ currentDoc.name then
          diffIntent baseDoc currentDoc
        else []
      | none => [])

/-- The `sort_by` comparator of `compute_diff` in strict form: `a` must
come before `b` (severity descending, then category display name
ascending). -/
def changeBefore (a b : SemanticChange) : Bool :=
  if a.severity.rank = b.severity.rank then
    strLe a.category.display b.category.display &&
      !(a.category.display == b.category.display)
  else decide (b.severity.rank < a.severity.rank)

/-- Stable insertion used to model `Vec::sort_by` (a stable sort). -/
def insertChange (c : SemanticChange) : List SemanticChange → List SemanticChange
  | [] => [c]
  | x :: xs => if changeBefore c x then c :: x :: xs else x :: insertChange c xs

/-- A stable sort by `changeBefore`, modelling
`changes.sort_by(severity desc, category asc)`. -/
def sortChanges (l : List SemanticChange) : List SemanticChange :=
  l.foldl (fun acc c => insertChange c acc) []

/-- `compute_diff` from `src/diff/semantic.rs`: added intents (plus their
new effects for workflows), removed intents, modified intents, then the
stable severity/category sort. -/
def computeDiff (base current : IntentStore) : List SemanticChange :=
  let baseIds := base.docs.map (fun d => d.id)
  let currentIds := current.docs.map (fun d => d.id)
  let added := (current.docs.filter (fun x => decide (¬ x.id ∈ baseIds))).flatMap
    (fun doc =>
      addedChange doc :: (if doc.kind = .workflow then checkNewEffects doc else []))
  let removed := (base.docs.filter (fun x => decide (¬ x.id ∈ currentIds))).map
    removedChange
  sortChanges (added ++ removed ++ modifiedChanges base.docs current.docs)

theorem filter_not_mem_self {α : Type} [inst : ∀ (x : α) (l : List α), Decidable (x ∈ l)]
    (l : List α) : l.filter (fun k => decide (¬ k ∈ l)) = [] := by
  rw [List.filter_eq_nil_iff]
  intro x hx
  simp [hx]

theorem filter_mem_of_subset {α : Type} [inst : ∀ (x : α) (l : List α), Decidable (x ∈ l)]
    (l m : List α) (h : ∀ x ∈ l, x ∈ m) :
    l.filter (fun k => decide (k ∈ m)) = l := by
  rw [List.filter_eq_self]
  intro x hx
  simp [h x hx]

theorem flatMap_nil_of {α β : Type} (l : List α) (f : α → List β)
    (h : ∀ x ∈ l, f x = []) : l.flatMap f = [] := by
  induction l with
  | nil => rfl
  | cons a as ih =>
    rw [List.flatMap_cons, h a (List.mem_cons_self a as),
      ih (fun x hx => h x (List.mem_cons_of_mem a hx))]
    rfl

theorem asTypeSpec_congr (a b : IntentDocument) (h : a.spec = b.spec) :
    a.asTypeSpec = b.asTypeSpec := by
  unfold IntentDocument.asTypeSpec
  rw [h]

theorem asEndpointSpec_congr (a b : IntentDocument) (h : a.spec = b.spec) :
    a.asEndpointSpec = b.asEndpointSpec := by
  unfold IntentDocument.asEndpointSpec
  rw [h]

theorem asWorkflowSpec_congr (a b : IntentDocument) (h : a.spec = b.spec) :
    a.asWorkflowSpec = b.asWorkflowSpec := by
  unfold IntentDocument.asWorkflowSpec
  rw [h]

theorem asServiceSpec_congr (a b : IntentDocument) (h : a.spec = b.spec) :
    a.asServiceSpec = b.asServiceSpec := by
  unfold IntentDocument.asServiceSpec
  rw [h]

theorem diffType_eq_nil (base current : IntentDocument)
    (h : base.spec = current.spec) : diffType base current = [] := by
  unfold diffType
  rw [asTypeSpec_congr base current h]
  cases hs : current.asTypeSpec with
  | error e => rfl
  | ok s =>
    simp only [filter_not_mem_self, List.filterMap_nil, List.map_nil,
      List.nil_append]
    rw [filter_mem_of_subset _ _ (fun x hx => hx)]
    refine flatMap_nil_of _ _ (fun k hk => ?_)
    cases hlk : lookupA k s.fields with
    | none => rfl
    | some fd => simp

theorem diffEndpoint_eq_nil (base current : IntentDocument)
    (h : base.spec = current.spec) : diffEndpoint base current = [] := by
  have hacc := asEndpointSpec_congr base current h
  have haw : checkAuthzWidening base current = none := by
    unfold checkAuthzWidening
    rw [hacc]
    cases hs : current.asEndpointSpec with
    | error e => rfl
    | ok s => cases hau : s.authz <;> simp [hau]
  unfold diffEndpoint
  rw [hacc, haw]
  cases hs : current.asEndpointSpec with
  | error e => rfl
  | ok s => simp [filter_not_mem_self]

theorem diffWorkflow_eq_nil (base current : IntentDocument)
    (h : base.spec = current.spec) : diffWorkflow base current = [] := by
  unfold diffWorkflow
  rw [asWorkflowSpec_congr base current h]
  cases hs : current.asWorkflowSpec with
  | error e => rfl
  | ok s => simp only [filter_not_mem_self, List.map_nil, List.nil_append]

theorem diffService_eq_nil (base current : IntentDocument)
    (h : base.spec = current.spec) : diffService base current = [] := by
  unfold diffService
  rw [asServiceSpec_congr base current h]
  cases hs : current.asServiceSpec with
  | error e => rfl
  | ok s => simp [filter_not_mem_self]

theorem find?_id_nodup (l : List IntentDocument)
    (h : (l.map (fun d => d.id)).Nodup) :
    ∀ x ∈ l, l.find? (fun y => y.id == x.id) = some x := by
  induction l with
  | nil => intro x hx; cases hx
  | cons a as ih =>
    intro x hx
    rw [List.map_cons, List.nodup_cons] at h
    rcases List.mem_cons.mp hx with rfl | hx2
    · rw [List.find?_cons_of_pos _ (by simp)]
    · have hne : (a.id == x.id) = false := by
        rw [beq_eq_false_iff_ne]
        intro he
        exact h.1 (he ▸ List.mem_map_of_mem (fun d => d.id) hx2)
      rw [List.find?_cons_of_neg _ (by simp [hne])]
      exact ih h.2 x hx2

theorem diffIntent_rename (d d' : IntentDocument) (hspec : d.spec = d'.spec)
    (hname : d.name ≠ d'.name) :
    diffIntent d d' = [renameChange d d'] := by
  unfold diffIntent
  rw [if_pos hname]
  have ht := diffType_eq_nil d d' hspec
  have he := diffEndpoint_eq_nil d d' hspec
  have hw := diffWorkflow_eq_nil d d' hspec
  have hs := diffService_eq_nil d d' hspec
  cases hk : d'.kind <;> simp [ht, he, hw, hs]

theorem modifiedChanges_rename (l1 l2 : List IntentDocument)
    (d d' : IntentDocument) (hid : d'.id = d.id)
    (hname : d'.name ≠ d.name)
    (hnodup : (((l1 ++ d :: l2)).map (fun x => x.id)).Nodup) :
    modifiedChanges (l1 ++ d :: l2) (l1 ++ d' :: l2) = diffIntent d d' := by
  have hS : (l1 ++ d' :: l2).map (fun y => y.id) =
      (l1 ++ d :: l2).map (fun x => x.id) := by
    simp [hid]
  have hnodup2 : ((l1 ++ d' :: l2).map (fun y => y.id)).Nodup := by
    rw [hS]; exact hnodup
  unfold modifiedChanges
  rw [hS]
  rw [List.filter_eq_self.mpr (fun x hx => by
    simp only [decide_eq_true_eq]
    exact List.mem_map_of_mem (fun d => d.id) hx)]
  rw [List.flatMap_append, List.flatMap_cons]
  have hl1 : ∀ x ∈ l1, (l1 ++ d' :: l2).find? (fun y => y.id == x.id) = some x :=
    fun x hx => find?_id_nodup _ hnodup2 x (List.mem_append_left _ hx)
  have hl2 : ∀ x ∈ l2, (l1 ++ d' :: l2).find? (fun y => y.id == x.id) = some x :=
    fun x hx => find?_id_nodup _ hnodup2 x
      (List.mem_append_right _ (List.mem_cons_of_mem _ hx))
  have hdd : (l1 ++ d' :: l2).find? (fun y => y.id == d.id) = some d' := by
    rw [← hid]
    exact find?_id_nodup _ hnodup2 d'
      (List.mem_append_right _ (List.mem_cons_self _ _))
  rw [flatMap_nil_of l1 _ (fun x hx => by rw [hl1 x hx]; simp)]
  rw [flatMap_nil_of l2 _ (fun x hx => by rw [hl2 x hx]; simp)]
  rw [hdd]
  have hcond : d.spec ≠ d'.spec ∨ d.name ≠ d'.name := Or.inr (Ne.symm hname)
  show [] ++ ((if d.spec ≠ d'.spec ∨ d.name ≠ d'.name then diffIntent d d'
    else []) ++ []) = diffIntent d d'
  rw [if_pos hcond]
  simp

/-- C9: for two stores identical except that one intent (same id, same
spec) bears a different name, the semantic diff is exactly the one INFO
rename change for that intent: in particular no HIGH entries. -/
theorem C9_rename_single_info (base current : IntentStore)
    (l1 l2 : List IntentDocument) (d d' : IntentDocument)
    (hbase : base.docs = l1 ++ d :: l2) (hcur : current.docs = l1 ++ d' :: l2)
    (hid : d'.id = d.id) (_hkind : d'.kind = d.kind) (hspec : d'.spec = d.spec)
    (hname : d'.name ≠ d.name)
    (hnodup : (base.docs.map (fun x => x.id)).Nodup) :
    computeDiff base current = [renameChange d d'] ∧
      (renameChange d d').severity = .info ∧
      ∀ c ∈ computeDiff base current, c.severity ≠ .high := by
  rw [hbase] at hnodup
  have hS : (l1 ++ d' :: l2).map (fun y => y.id) =
      (l1 ++ d :: l2).map (fun x => x.id) := by
    simp [hid]
  have hmain : computeDiff base current = [renameChange d d'] := by
    simp only [computeDiff]
    rw [hbase, hcur]
    rw [List.filter_eq_nil_iff.mpr (fun x hx => by
      simp only [decide_eq_true_eq, not_not]
      rw [← hS]
      exact List.mem_map_of_mem (fun y => y.id) hx)]
    rw [List.filter_eq_nil_iff.mpr (fun x hx => by
      simp only [decide_eq_true_eq, not_not]
      rw [hS]
      exact List.mem_map_of_mem (fun x => x.id) hx)]
    rw [modifiedChanges_rename l1 l2 d d' hid hname hnodup]
    rw [diffIntent_rename d d' hspec.symm (Ne.symm hname)]
    rfl
  refine ⟨hmain, rfl, ?_⟩
  intro c hc
  rw [hmain] at hc
  rcases List.mem_singleton.mp hc with rfl
  intro hhigh
  exact absurd hhigh (by simp [renameChange])

/-- A type intent named `A`. -/
def docC9base : IntentDocument := ⟨"1.0", 42, .type, "A", .typeS ⟨[]⟩, none⟩

/-- The same intent (same id, same spec) renamed to `B`. -/
def docC9cur : IntentDocument := ⟨"1.0", 42, .type, "B", .typeS ⟨[]⟩, none⟩

/-- Witness for `C9_rename_single_info`: one-document stores differing
only in the document's name produce exactly the one INFO rename change. -/
theorem C9_rename_single_info_witness :
    ((loadSeq [docC9base]).docs = [] ++ docC9base :: [] ∧
      (loadSeq [docC9cur]).docs = [] ++ docC9cur :: [] ∧
      docC9cur.id = docC9base.id ∧ docC9cur.spec = docC9base.spec ∧
      docC9cur.name ≠ docC9base.name ∧
      ((loadSeq [docC9base]).docs.map (fun x => x.id)).Nodup) ∧
    computeDiff (loadSeq [docC9base]) (loadSeq [docC9cur]) =
      [renameChange docC9base docC9cur] :=
  ⟨⟨by decide, by decide, by decide, by decide, by decide, by decide⟩,
    (C9_rename_single_info (loadSeq [docC9base]) (loadSeq [docC9cur]) [] []
      docC9base docC9cur (by decide) (by decide) (by decide) (by decide)
      (by decide) (by decide) (by decide)).1⟩
